import Mathlib

/-!
Verification of the space-dogs simulation core (`src/app/space-dogs/engine`).

The discrete subsystems (weapon hit testing and drone health, the tractor-beam
state machine, the victory evaluator, enemy spawn/movement scratch state) are
embedded over exact rationals; the player controller (which divides by vector
lengths) is embedded over the reals.  JavaScript numbers are idealised as
exact arithmetic; Babylon.js library calls that the engine relies on
(`Vector3.normalize`, `Vector3.TransformCoordinates`) are embedded following
the Babylon.js sources: in particular Babylon's `normalize` returns the vector
unchanged when its length is `0` or `1`.
-/

namespace SpaceDogs

/-- Rational 3-vector, used for the exactly-computable subsystems. -/
structure Vec3 where
  x : ℚ
  y : ℚ
  z : ℚ
deriving DecidableEq, Repr

namespace Vec3

def add (a b : Vec3) : Vec3 := ⟨a.x + b.x, a.y + b.y, a.z + b.z⟩

def sub (a b : Vec3) : Vec3 := ⟨a.x - b.x, a.y - b.y, a.z - b.z⟩

def scale (a : Vec3) (k : ℚ) : Vec3 := ⟨a.x * k, a.y * k, a.z * k⟩

def zero : Vec3 := ⟨0, 0, 0⟩

end Vec3

/-- Affine transform on rational 3-vectors: embeds a Babylon world (or
inverse-world) matrix as applied by `Vector3.TransformCoordinates` on an
affine matrix (linear part plus translation). -/
structure Aff where
  m11 : ℚ
  m12 : ℚ
  m13 : ℚ
  m21 : ℚ
  m22 : ℚ
  m23 : ℚ
  m31 : ℚ
  m32 : ℚ
  m33 : ℚ
  t : Vec3
deriving DecidableEq, Repr

def Aff.apply (m : Aff) (v : Vec3) : Vec3 :=
  ⟨m.m11 * v.x + m.m21 * v.y + m.m31 * v.z + m.t.x,
   m.m12 * v.x + m.m22 * v.y + m.m32 * v.z + m.t.y,
   m.m13 * v.x + m.m23 * v.y + m.m33 * v.z + m.t.z⟩

/-- Identity transform. -/
def Aff.id : Aff := ⟨1, 0, 0, 0, 1, 0, 0, 0, 1, Vec3.zero⟩

/-- Embedding of the JavaScript expression `r || 1` as used on a collision
radius in `useWeapons.ts` (`updateWeapons`): a zero radius is replaced by 1. -/
def orOne (r : ℚ) : ℚ := if r = 0 then 1 else r

/-- Point-in-ellipsoid hit test from `useWeapons.ts` lines 123-134: transform
the laser position into the drone's local space, offset by the collision
center, divide per axis by the radii (`radii || 1`), and test
`nx*nx + ny*ny + nz*nz <= 1`. -/
def ellipsoidHit (inverseWorld : Aff) (center radii : Vec3) (laserPos : Vec3) : Bool :=
  let laserLocal := inverseWorld.apply laserPos
  let offset := laserLocal.sub center
  let nx := offset.x / orOne radii.x
  let ny := offset.y / orOne radii.y
  let nz := offset.z / orOne radii.z
  nx * nx + ny * ny + nz * nz ≤ 1

/-- C2 counterexample: with a degenerate collision ellipsoid whose x-radius is
zero, the probe point `center + radii * (1 + eps)` along the x axis collapses
onto the center (since `radii.x = 0`), and the hit test classifies it as a
hit, contradicting the claim that such a point is always a miss. -/
theorem ellipsoidHit_zero_axis_not_miss :
    ellipsoidHit Aff.id ⟨0, 0, 0⟩ ⟨0, 2, 3⟩
      (Vec3.add ⟨0, 0, 0⟩ ⟨0 * (1 + 1), 0, 0⟩) = true := by
  norm_num [ellipsoidHit, Aff.apply, Aff.id, Vec3.add, Vec3.sub, Vec3.zero, orOne]

/-- C2 (amended): a projectile whose local-space position is exactly the
ellipsoid center is always a hit; a projectile at `center + radii * (1 + eps)`
along a single axis is a miss provided the radius of that axis is positive
(with a zero radius the probe point collapses onto the center and is a hit). -/
theorem ellipsoidHit_center_and_axis (inverseWorld : Aff) (center radii p : Vec3)
    (eps : ℚ) (heps : 0 < eps) :
    (inverseWorld.apply p = center → ellipsoidHit inverseWorld center radii p = true) ∧
    (0 < radii.x →
      inverseWorld.apply p = center.add ⟨radii.x * (1 + eps), 0, 0⟩ →
      ellipsoidHit inverseWorld center radii p = false) ∧
    (0 < radii.y →
      inverseWorld.apply p = center.add ⟨0, radii.y * (1 + eps), 0⟩ →
      ellipsoidHit inverseWorld center radii p = false) ∧
    (0 < radii.z →
      inverseWorld.apply p = center.add ⟨0, 0, radii.z * (1 + eps)⟩ →
      ellipsoidHit inverseWorld center radii p = false) := by
  have honez : ∀ r : ℚ, 0 < r → orOne r = r := by
    intro r hr
    simp [orOne, ne_of_gt hr]
  refine ⟨?_, ?_, ?_, ?_⟩
  · intro hp
    simp [ellipsoidHit, hp, Vec3.sub, orOne]
  · intro hrx hp
    have hval : (radii.x * (1 + eps)) / orOne radii.x = 1 + eps := by
      rw [honez radii.x hrx, mul_comm, mul_div_assoc, div_self (ne_of_gt hrx), mul_one]
    simp only [ellipsoidHit, hp, Vec3.sub, Vec3.add, decide_eq_false_iff_not, not_le]
    have h1 : (1:ℚ) < 1 + eps := by linarith
    have hx : (1:ℚ) < ((radii.x * (1 + eps)) / orOne radii.x) *
        ((radii.x * (1 + eps)) / orOne radii.x) := by
      rw [hval]
      nlinarith
    have hy2 : (0:ℚ) ≤ (0 / orOne radii.y) * (0 / orOne radii.y) := mul_self_nonneg _
    have hz2 : (0:ℚ) ≤ (0 / orOne radii.z) * (0 / orOne radii.z) := mul_self_nonneg _
    have hsimp : center.x + radii.x * (1 + eps) - center.x = radii.x * (1 + eps) := by ring
    have hy0 : center.y + 0 - center.y = (0:ℚ) := by ring
    have hz0 : center.z + 0 - center.z = (0:ℚ) := by ring
    rw [hsimp, hy0, hz0]
    nlinarith [hx, hy2, hz2]
  · intro hry hp
    have hval : (radii.y * (1 + eps)) / orOne radii.y = 1 + eps := by
      rw [honez radii.y hry, mul_comm, mul_div_assoc, div_self (ne_of_gt hry), mul_one]
    simp only [ellipsoidHit, hp, Vec3.sub, Vec3.add, decide_eq_false_iff_not, not_le]
    have hy : (1:ℚ) < ((radii.y * (1 + eps)) / orOne radii.y) *
        ((radii.y * (1 + eps)) / orOne radii.y) := by
      rw [hval]
      nlinarith
    have hx2 : (0:ℚ) ≤ (0 / orOne radii.x) * (0 / orOne radii.x) := mul_self_nonneg _
    have hz2 : (0:ℚ) ≤ (0 / orOne radii.z) * (0 / orOne radii.z) := mul_self_nonneg _
    have hsimp : center.y + radii.y * (1 + eps) - center.y = radii.y * (1 + eps) := by ring
    have hx0 : center.x + 0 - center.x = (0:ℚ) := by ring
    have hz0 : center.z + 0 - center.z = (0:ℚ) := by ring
    rw [hsimp, hx0, hz0]
    nlinarith [hy, hx2, hz2]
  · intro hrz hp
    have hval : (radii.z * (1 + eps)) / orOne radii.z = 1 + eps := by
      rw [honez radii.z hrz, mul_comm, mul_div_assoc, div_self (ne_of_gt hrz), mul_one]
    simp only [ellipsoidHit, hp, Vec3.sub, Vec3.add, decide_eq_false_iff_not, not_le]
    have hz : (1:ℚ) < ((radii.z * (1 + eps)) / orOne radii.z) *
        ((radii.z * (1 + eps)) / orOne radii.z) := by
      rw [hval]
      nlinarith
    have hx2 : (0:ℚ) ≤ (0 / orOne radii.x) * (0 / orOne radii.x) := mul_self_nonneg _
    have hy2 : (0:ℚ) ≤ (0 / orOne radii.y) * (0 / orOne radii.y) := mul_self_nonneg _
    have hsimp : center.z + radii.z * (1 + eps) - center.z = radii.z * (1 + eps) := by ring
    have hx0 : center.x + 0 - center.x = (0:ℚ) := by ring
    have hy0 : center.y + 0 - center.y = (0:ℚ) := by ring
    rw [hsimp, hx0, hy0]
    nlinarith [hz, hx2, hy2]

/-- C2 witness: the amended theorem applied at a concrete drone
(center `(1,2,3)`, radii `(1,2,3)`, identity world transform, `eps = 1`). -/
theorem ellipsoidHit_center_and_axis_witness :
    (0:ℚ) < 1 ∧
    ((Aff.id.apply ⟨1, 2, 3⟩ = ⟨1, 2, 3⟩ →
        ellipsoidHit Aff.id ⟨1, 2, 3⟩ ⟨1, 2, 3⟩ ⟨1, 2, 3⟩ = true) ∧
      ((0:ℚ) < 1 →
        Aff.id.apply ⟨1, 2, 3⟩ = Vec3.add ⟨1, 2, 3⟩ ⟨1 * (1 + 1), 0, 0⟩ →
        ellipsoidHit Aff.id ⟨1, 2, 3⟩ ⟨1, 2, 3⟩ ⟨1, 2, 3⟩ = false) ∧
      ((0:ℚ) < 2 →
        Aff.id.apply ⟨1, 2, 3⟩ = Vec3.add ⟨1, 2, 3⟩ ⟨0, 2 * (1 + 1), 0⟩ →
        ellipsoidHit Aff.id ⟨1, 2, 3⟩ ⟨1, 2, 3⟩ ⟨1, 2, 3⟩ = false) ∧
      ((0:ℚ) < 3 →
        Aff.id.apply ⟨1, 2, 3⟩ = Vec3.add ⟨1, 2, 3⟩ ⟨0, 0, 3 * (1 + 1)⟩ →
        ellipsoidHit Aff.id ⟨1, 2, 3⟩ ⟨1, 2, 3⟩ ⟨1, 2, 3⟩ = false)) :=
  ⟨by norm_num, ellipsoidHit_center_and_axis Aff.id ⟨1, 2, 3⟩ ⟨1, 2, 3⟩ ⟨1, 2, 3⟩ 1 (by norm_num)⟩

/-! Weapon system (`useWeapons.ts` `updateWeapons`) together with the drone
removal path (`Game.tsx` `handleDroneDestroyed` calling `useEnemies.ts`
`removeDrone`, which splices the drone out of the registry synchronously).
Drones carry an abstract id so that per-drone event counts can be stated. -/

/-- Event emitted by the weapon system: the `onDroneHit` / `onDroneDestroyed`
callbacks of `updateWeapons`, keyed by the id of the drone concerned. -/
inductive WEvent where
  | hit (targetId : ℕ)
  | destroyed (targetId : ℕ)
deriving DecidableEq, Repr

/-- Id of the drone an event concerns. -/
def WEvent.targetId : WEvent → ℕ
  | .hit i => i
  | .destroyed i => i

/-- Drone as seen by the weapon system: registry identity, integer health, and
the collision geometry read in `updateWeapons` (inverse world matrix of the
drone node, local collision center and per-axis radii). -/
structure DroneW where
  id : ℕ
  health : ℤ
  inverseWorld : Aff
  collisionCenter : Vec3
  collisionRadii : Vec3

/-- Laser projectile: position, unit direction, remaining time to live. -/
structure LaserW where
  pos : Vec3
  dir : Vec3
  ttl : ℚ

/-- Hit test of a laser against one drone (`useWeapons.ts` lines 123-134). -/
def droneInside (l : LaserW) (d : DroneW) : Bool :=
  ellipsoidHit d.inverseWorld d.collisionCenter d.collisionRadii l.pos

/-- Scan a drone list front to back for the first drone the laser is inside;
on a hit decrement health, then either remove the drone and emit `destroyed`
(health ≤ 0 after the decrement) or keep it and emit `hit`.  `updateWeapons`
scans the drone array back to front, so this helper is applied to the
reversed registry by `hitScan`. -/
def hitScanFwd (l : LaserW) : List DroneW → Option (List DroneW × WEvent)
  | [] => none
  | d :: rest =>
    if droneInside l d then
      let h := d.health - 1
      if h ≤ 0 then some (rest, WEvent.destroyed d.id)
      else some ({ d with health := h } :: rest, WEvent.hit d.id)
    else
      match hitScanFwd l rest with
      | none => none
      | some (rest', ev) => some (d :: rest', ev)

/-- Hit scan in source order: `updateWeapons` iterates drones from the highest
index down (`for d = drones.length - 1; d >= 0; d -= 1`), and the destroyed
drone is spliced out of the registry in place. -/
def hitScan (l : LaserW) (ds : List DroneW) : Option (List DroneW × WEvent) :=
  match hitScanFwd l ds.reverse with
  | none => none
  | some (ds', ev) => some (ds'.reverse, ev)

/-- Advance a laser: move along its direction by `laserSpeed * dt` and
decrement its time to live (`useWeapons.ts` lines 105-110). -/
def laserAdvance (laserSpeed dt : ℚ) (l : LaserW) : LaserW :=
  { l with pos := l.pos.add (l.dir.scale (laserSpeed * dt)), ttl := l.ttl - dt }

/-- Body of the laser loop of `updateWeapons`, processing lasers one at a
time: advance, drop on expiry, otherwise hit test against the live drones;
a hit consumes the laser and updates the registry (first hit wins).  The
laser array is iterated from the highest index down, so `updateWeapons`
applies this helper to the reversed laser list. -/
def wGo (laserSpeed dt : ℚ) : List LaserW → List DroneW → List LaserW × List DroneW × List WEvent
  | [], ds => ([], ds, [])
  | l :: rest, ds =>
    let l' := laserAdvance laserSpeed dt l
    if l'.ttl ≤ 0 then wGo laserSpeed dt rest ds
    else
      match hitScan l' ds with
      | some (ds', ev) =>
        let out := wGo laserSpeed dt rest ds'
        (out.1, out.2.1, ev :: out.2.2)
      | none =>
        let out := wGo laserSpeed dt rest ds
        (l' :: out.1, out.2.1, out.2.2)

/-- One tick of the weapon system (`useWeapons.ts` `updateWeapons`): lasers
are processed from the highest index down (reverse iteration allows in-place
removal); surviving lasers keep their relative order. -/
def updateWeapons (laserSpeed dt : ℚ) (ls : List LaserW) (ds : List DroneW) :
    List LaserW × List DroneW × List WEvent :=
  let out := wGo laserSpeed dt ls.reverse ds
  (out.1.reverse, out.2.1, out.2.2)

/-- Between weapon ticks the enemy system moves the drones; for the weapon
subsystem this only changes each drone's world transform.  The oracle `g`
supplies the new inverse world matrix per drone id. -/
def applyGeom (g : ℕ → Aff) (ds : List DroneW) : List DroneW :=
  ds.map (fun d => { d with inverseWorld := g d.id })

/-- Multi-tick weapon run: each tick supplies `dt` and the drones' new world
transforms; events accumulate in emission order. -/
def weaponsRun (laserSpeed : ℚ) :
    List (ℚ × (ℕ → Aff)) → List LaserW → List DroneW →
      List LaserW × List DroneW × List WEvent
  | [], ls, ds => (ls, ds, [])
  | (dt, g) :: rest, ls, ds =>
    let out := updateWeapons laserSpeed dt ls (applyGeom g ds)
    let out2 := weaponsRun laserSpeed rest out.1 out.2.1
    (out2.1, out2.2.1, out.2.2 ++ out2.2.2)

/-- Registry entries carrying a given id. -/
def dronesFor (ds : List DroneW) (x : ℕ) : List DroneW :=
  ds.filter (fun d => d.id == x)

/-- Events concerning a given drone id. -/
def eventsFor (evs : List WEvent) (x : ℕ) : List WEvent :=
  evs.filter (fun e => e.targetId == x)

/-- Tidy registry: every id occurs at most once and every live drone has at
least 1 health. -/
def Tidy (ds : List DroneW) : Prop :=
  ∀ x : ℕ, dronesFor ds x = [] ∨ ∃ d, dronesFor ds x = [d] ∧ 1 ≤ d.health

/-- Per-id transition summary of a weapon-system run: a drone id is either
absent throughout with no events, or starts as a unique live drone and either
survives `k < health` hits (health decremented by exactly `k`) or is removed
after its health is exhausted, with `health - 1` hit events followed by a
single destroyed event. -/
def perIdTrans (ds : List DroneW) (evs : List WEvent) (ds' : List DroneW) (x : ℕ) : Prop :=
  (dronesFor ds x = [] ∧ dronesFor ds' x = [] ∧ eventsFor evs x = []) ∨
  (∃ d, dronesFor ds x = [d] ∧ 1 ≤ d.health ∧
    ((∃ k : ℕ, ∃ d', (k : ℤ) < d.health ∧
        eventsFor evs x = List.replicate k (WEvent.hit x) ∧
        dronesFor ds' x = [d'] ∧ d'.health = d.health - k) ∨
     (eventsFor evs x = List.replicate (d.health - 1).toNat (WEvent.hit x) ++
          [WEvent.destroyed x] ∧
        dronesFor ds' x = [])))

lemma append_cons_eq_singleton {α : Type} {a c : List α} {b d : α}
    (h : a ++ b :: c = [d]) : a = [] ∧ b = d ∧ c = [] := by
  cases a with
  | nil => simpa using h
  | cons y ys => simp [List.cons_eq_cons] at h

lemma dronesFor_mem_id {ds : List DroneW} {x : ℕ} {d : DroneW}
    (h : d ∈ dronesFor ds x) : d.id = x := by
  have := (List.mem_filter.mp h).2
  simpa using this

lemma dronesFor_eq_singleton {ds : List DroneW} (hids : (ds.map DroneW.id).Nodup)
    {d0 : DroneW} (hd : d0 ∈ ds) : dronesFor ds d0.id = [d0] := by
  induction ds with
  | nil => cases hd
  | cons d rest ih =>
    rw [List.map_cons, List.nodup_cons] at hids
    rcases List.mem_cons.mp hd with h | h
    · subst h
      have hrest : dronesFor rest d0.id = [] := by
        refine List.filter_eq_nil_iff.mpr ?_
        intro d2 hd2
        simp only [beq_iff_eq, decide_eq_true_eq]
        intro hcontra
        exact hids.1 (by simpa [hcontra] using List.mem_map_of_mem DroneW.id hd2)
      simp [dronesFor, List.filter_cons, hrest] at hrest ⊢
      exact hrest
    · have hne : d.id ≠ d0.id := by
        intro hcontra
        exact hids.1 (by simpa [hcontra] using List.mem_map_of_mem DroneW.id h)
      have := ih hids.2 h
      simpa [dronesFor, List.filter_cons, hne] using this

lemma tidy_of_nodup {ds : List DroneW} (hids : (ds.map DroneW.id).Nodup)
    (hh : ∀ d ∈ ds, 1 ≤ d.health) : Tidy ds := by
  intro x
  by_cases hx : ∃ d0 ∈ ds, d0.id = x
  · obtain ⟨d0, hd0, rfl⟩ := hx
    exact Or.inr ⟨d0, dronesFor_eq_singleton hids hd0, hh d0 hd0⟩
  · left
    refine List.filter_eq_nil_iff.mpr ?_
    intro d hd
    simp only [beq_iff_eq, decide_eq_true_eq]
    exact fun hcontra => hx ⟨d, hd, hcontra⟩

lemma perIdTrans_refl {ds : List DroneW} (htidy : Tidy ds) (x : ℕ) :
    perIdTrans ds [] ds x := by
  rcases htidy x with h | ⟨d, hd, hh⟩
  · exact Or.inl ⟨h, h, rfl⟩
  · exact Or.inr ⟨d, hd, hh, Or.inl ⟨0, d, by omega, rfl, hd, by omega⟩⟩

lemma perIdTrans_tidy {ds ds' : List DroneW} {evs : List WEvent}
    (h : ∀ x, perIdTrans ds evs ds' x) : Tidy ds' := by
  intro x
  rcases h x with ⟨_, h2, _⟩ | ⟨d, _, hh, ⟨k, d', hk, _, hd', hhd'⟩ | ⟨_, h2⟩⟩
  · exact Or.inl h2
  · exact Or.inr ⟨d', hd', by omega⟩
  · exact Or.inl h2

lemma eventsFor_append (evs1 evs2 : List WEvent) (x : ℕ) :
    eventsFor (evs1 ++ evs2) x = eventsFor evs1 x ++ eventsFor evs2 x :=
  List.filter_append ..

lemma perIdTrans_comp {ds ds1 ds2 : List DroneW} {evs1 evs2 : List WEvent} {x : ℕ}
    (h1 : perIdTrans ds evs1 ds1 x) (h2 : perIdTrans ds1 evs2 ds2 x) :
    perIdTrans ds (evs1 ++ evs2) ds2 x := by
  rw [perIdTrans, eventsFor_append]
  rcases h1 with ⟨ha, hb, hc⟩ | ⟨d, hd, hh, hcase⟩
  · rcases h2 with ⟨_, hb2, hc2⟩ | ⟨d2, hd2, _, _⟩
    · exact Or.inl ⟨ha, hb2, by rw [hc, hc2]; rfl⟩
    · rw [hb] at hd2; cases hd2
  · rcases hcase with ⟨k, d', hk, hev, hd', hhd'⟩ | ⟨hev, hgone⟩
    · rcases h2 with ⟨ha2, _, _⟩ | ⟨d2, hd2, hh2, hcase2⟩
      · rw [hd'] at ha2; cases ha2
      · rw [hd'] at hd2
        injection hd2 with hd2a
        have he : d'.health = d2.health := by rw [hd2a]
        rcases hcase2 with ⟨k2, d2', hk2, hev2, hd2', hhd2'⟩ | ⟨hev2, hgone2⟩
        · refine Or.inr ⟨d, hd, hh, Or.inl ⟨k + k2, d2', by omega, ?_, hd2', by omega⟩⟩
          rw [hev, hev2, ← List.replicate_add]
        · refine Or.inr ⟨d, hd, hh, Or.inr ⟨?_, hgone2⟩⟩
          rw [hev, hev2, ← List.append_assoc, ← List.replicate_add]
          have harith : k + (d2.health - 1).toNat = (d.health - 1).toNat := by omega
          rw [harith]
    · rcases h2 with ⟨_, hb2, hc2⟩ | ⟨d2, hd2, _, _⟩
      · refine Or.inr ⟨d, hd, hh, Or.inr ⟨?_, hb2⟩⟩
        rw [hev, hc2, List.append_nil]
      · rw [hgone] at hd2; cases hd2

lemma dronesFor_append (a b : List DroneW) (x : ℕ) :
    dronesFor (a ++ b) x = dronesFor a x ++ dronesFor b x :=
  List.filter_append ..

lemma hitScanFwd_eq_some {l : LaserW} {ds ds' : List DroneW} {ev : WEvent}
    (h : hitScanFwd l ds = some (ds', ev)) :
    ∃ pre t post, ds = pre ++ t :: post ∧
      ((t.health - 1 ≤ 0 ∧ ev = WEvent.destroyed t.id ∧ ds' = pre ++ post) ∨
       (¬ t.health - 1 ≤ 0 ∧ ev = WEvent.hit t.id ∧
         ds' = pre ++ { t with health := t.health - 1 } :: post)) := by
  induction ds generalizing ds' ev with
  | nil => simp [hitScanFwd] at h
  | cons d rest ih =>
    by_cases hin : droneInside l d
    · by_cases hdead : d.health - 1 ≤ 0
      · rw [hitScanFwd, if_pos hin, if_pos hdead] at h
        injection h with h
        injection h with h1 h2
        exact ⟨[], d, rest, by simp, Or.inl ⟨hdead, h2.symm, h1.symm⟩⟩
      · rw [hitScanFwd, if_pos hin, if_neg hdead] at h
        injection h with h
        injection h with h1 h2
        exact ⟨[], d, rest, by simp,
          Or.inr ⟨hdead, h2.symm, by rw [← h1]; rfl⟩⟩
    · rw [hitScanFwd, if_neg hin] at h
      cases hres : hitScanFwd l rest with
      | none => rw [hres] at h; cases h
      | some pr =>
        rw [hres] at h
        injection h with h
        obtain ⟨rest', ev'⟩ := pr
        injection h with h1 h2
        subst h2
        obtain ⟨pre, t, post, hsplit, hcase⟩ := ih hres
        refine ⟨d :: pre, t, post, by rw [hsplit]; rfl, ?_⟩
        rcases hcase with ⟨c1, c2, c3⟩ | ⟨c1, c2, c3⟩
        · exact Or.inl ⟨c1, c2, by rw [← h1, c3]; rfl⟩
        · exact Or.inr ⟨c1, c2, by rw [← h1, c3]; rfl⟩

lemma perId_splice_dead {P Q : List DroneW} {t : DroneW}
    (htidy : Tidy (P ++ t :: Q)) (hdead : t.health - 1 ≤ 0) :
    ∀ x, perIdTrans (P ++ t :: Q) [WEvent.destroyed t.id] (P ++ Q) x := by
  intro x
  by_cases hx : t.id = x
  · subst hx
    have hmem : t ∈ dronesFor (P ++ t :: Q) t.id := by
      refine List.mem_filter.mpr ⟨by simp, by simp⟩
    rcases htidy t.id with h | ⟨d, hd, hh⟩
    · rw [h] at hmem; cases hmem
    · have hsplit : dronesFor P t.id ++ t :: dronesFor Q t.id = [d] := by
        have := hd
        rw [dronesFor_append] at this
        simpa [dronesFor, List.filter_cons] using this
      obtain ⟨hP, htd, hQ⟩ := append_cons_eq_singleton hsplit
      subst htd
      have hh1 : t.health = 1 := by omega
      refine Or.inr ⟨t, hd, hh, Or.inr ⟨?_, ?_⟩⟩
      · simp [eventsFor, WEvent.targetId, hh1]
      · rw [dronesFor_append, hP, hQ]; rfl
  · have hskip : dronesFor (P ++ t :: Q) x = dronesFor (P ++ Q) x := by
      rw [dronesFor_append, dronesFor_append]
      simp [dronesFor, List.filter_cons, hx]
    have hev : eventsFor [WEvent.destroyed t.id] x = [] := by
      simp [eventsFor, WEvent.targetId, hx]
    rcases htidy x with h | ⟨d, hd, hh⟩
    · exact Or.inl ⟨h, by rw [← hskip]; exact h, hev⟩
    · refine Or.inr ⟨d, hd, hh, Or.inl ⟨0, d, by omega, by rw [hev]; rfl, ?_, by omega⟩⟩
      rw [← hskip]; exact hd

lemma perId_splice_hit {P Q : List DroneW} {t : DroneW}
    (htidy : Tidy (P ++ t :: Q)) (halive : ¬ t.health - 1 ≤ 0) :
    ∀ x, perIdTrans (P ++ t :: Q) [WEvent.hit t.id]
      (P ++ { t with health := t.health - 1 } :: Q) x := by
  intro x
  by_cases hx : t.id = x
  · subst hx
    have hmem : t ∈ dronesFor (P ++ t :: Q) t.id := by
      refine List.mem_filter.mpr ⟨by simp, by simp⟩
    rcases htidy t.id with h | ⟨d, hd, hh⟩
    · rw [h] at hmem; cases hmem
    · have hsplit : dronesFor P t.id ++ t :: dronesFor Q t.id = [d] := by
        have := hd
        rw [dronesFor_append] at this
        simpa [dronesFor, List.filter_cons] using this
      obtain ⟨hP, htd, hQ⟩ := append_cons_eq_singleton hsplit
      subst htd
      refine Or.inr ⟨t, hd, hh,
        Or.inl ⟨1, { t with health := t.health - 1 }, by omega, ?_, ?_, by simp⟩⟩
      · simp [eventsFor, WEvent.targetId]
      · rw [dronesFor_append, hP]
        simpa [dronesFor, List.filter_cons] using hQ
  · have hskip : dronesFor (P ++ t :: Q) x =
        dronesFor (P ++ { t with health := t.health - 1 } :: Q) x := by
      rw [dronesFor_append, dronesFor_append]
      simp [dronesFor, List.filter_cons, hx]
    have hev : eventsFor [WEvent.hit t.id] x = [] := by
      simp [eventsFor, WEvent.targetId, hx]
    rcases htidy x with h | ⟨d, hd, hh⟩
    · exact Or.inl ⟨h, by rw [← hskip]; exact h, hev⟩
    · refine Or.inr ⟨d, hd, hh, Or.inl ⟨0, d, by omega, by rw [hev]; rfl, ?_, by omega⟩⟩
      rw [← hskip]; exact hd

lemma hitScan_perId {l : LaserW} {ds ds' : List DroneW} {ev : WEvent}
    (htidy : Tidy ds) (h : hitScan l ds = some (ds', ev)) :
    ∀ x, perIdTrans ds [ev] ds' x := by
  rw [hitScan] at h
  cases hfwd : hitScanFwd l ds.reverse with
  | none => rw [hfwd] at h; cases h
  | some pr =>
    obtain ⟨rs, ev2⟩ := pr
    rw [hfwd] at h
    injection h with h
    injection h with h1 h2
    subst h2
    obtain ⟨pre, t, post, hsplit, hcase⟩ := hitScanFwd_eq_some hfwd
    have hds : ds = post.reverse ++ t :: pre.reverse := by
      have := congrArg List.reverse hsplit
      simpa using this
    rcases hcase with ⟨c1, c2, c3⟩ | ⟨c1, c2, c3⟩
    · have hds' : ds' = post.reverse ++ pre.reverse := by
        rw [← h1, c3]; simp
      rw [hds, hds', c2]
      exact perId_splice_dead (by rw [← hds]; exact htidy) c1
    · have hds' : ds' = post.reverse ++ { t with health := t.health - 1 } :: pre.reverse := by
        rw [← h1, c3]; simp
      rw [hds, hds', c2]
      exact perId_splice_hit (by rw [← hds]; exact htidy) c1

lemma wGo_perId (laserSpeed dt : ℚ) (ls : List LaserW) :
    ∀ (ds : List DroneW), Tidy ds →
      ∀ x, perIdTrans ds (wGo laserSpeed dt ls ds).2.2 (wGo laserSpeed dt ls ds).2.1 x := by
  induction ls with
  | nil =>
    intro ds htidy x
    exact perIdTrans_refl htidy x
  | cons l rest ih =>
    intro ds htidy x
    by_cases httl : (laserAdvance laserSpeed dt l).ttl ≤ 0
    · simp only [wGo, httl, if_true]
      exact ih ds htidy x
    · cases hscan : hitScan (laserAdvance laserSpeed dt l) ds with
      | none =>
        simp only [wGo, httl, if_false, hscan]
        exact ih ds htidy x
      | some pr =>
        obtain ⟨ds1, ev⟩ := pr
        simp only [wGo, httl, if_false, hscan]
        have hstep := hitScan_perId htidy hscan
        have htidy1 : Tidy ds1 := perIdTrans_tidy hstep
        have hrest := ih ds1 htidy1 x
        have := perIdTrans_comp (hstep x) hrest
        simpa using this

lemma updateWeapons_perId (laserSpeed dt : ℚ) (ls : List LaserW)
    {ds : List DroneW} (htidy : Tidy ds) :
    ∀ x, perIdTrans ds (updateWeapons laserSpeed dt ls ds).2.2
      (updateWeapons laserSpeed dt ls ds).2.1 x := by
  intro x
  exact wGo_perId laserSpeed dt ls.reverse ds htidy x

lemma dronesFor_applyGeom (g : ℕ → Aff) (ds : List DroneW) (x : ℕ) :
    dronesFor (applyGeom g ds) x =
      (dronesFor ds x).map (fun d => { d with inverseWorld := g d.id }) := by
  induction ds with
  | nil => rfl
  | cons d rest ih =>
    by_cases h : d.id = x
    · simp only [applyGeom, List.map_cons, dronesFor, List.filter_cons] at ih ⊢
      simp [h, ih]
    · simp only [applyGeom, List.map_cons, dronesFor, List.filter_cons] at ih ⊢
      simp [h, ih]

lemma applyGeom_perId (g : ℕ → Aff) {ds : List DroneW} (htidy : Tidy ds) :
    ∀ x, perIdTrans ds [] (applyGeom g ds) x := by
  intro x
  rcases htidy x with h | ⟨d, hd, hh⟩
  · exact Or.inl ⟨h, by rw [dronesFor_applyGeom, h]; rfl, rfl⟩
  · have hup : ({ d with inverseWorld := g d.id } : DroneW).health = d.health := rfl
    refine Or.inr ⟨d, hd, hh, Or.inl ⟨0, { d with inverseWorld := g d.id }, by omega, rfl,
      by rw [dronesFor_applyGeom, hd]; rfl, by omega⟩⟩

lemma weaponsRun_perId (laserSpeed : ℚ) (trace : List (ℚ × (ℕ → Aff))) :
    ∀ (ls : List LaserW) (ds : List DroneW), Tidy ds →
      ∀ x, perIdTrans ds (weaponsRun laserSpeed trace ls ds).2.2
        (weaponsRun laserSpeed trace ls ds).2.1 x := by
  induction trace with
  | nil =>
    intro ls ds htidy x
    exact perIdTrans_refl htidy x
  | cons tg rest ih =>
    intro ls ds htidy x
    obtain ⟨dt, g⟩ := tg
    simp only [weaponsRun]
    have h0 := applyGeom_perId g htidy x
    have htidy0 : Tidy (applyGeom g ds) := perIdTrans_tidy (applyGeom_perId g htidy)
    have h1 := updateWeapons_perId laserSpeed dt ls htidy0
    have htidy1 : Tidy (updateWeapons laserSpeed dt ls (applyGeom g ds)).2.1 :=
      perIdTrans_tidy h1
    have h2 := ih (updateWeapons laserSpeed dt ls (applyGeom g ds)).1
      (updateWeapons laserSpeed dt ls (applyGeom g ds)).2.1 htidy1 x
    have := perIdTrans_comp (perIdTrans_comp h0 (h1 x)) h2
    simpa using this

/-- C1: over any multi-tick weapon run on a registry with distinct drone ids
and positive integer healths, each drone id either survives with its health
equal to the initial health minus the exact number of hit events it received
(all of its events being `hit`), or is absent from the final registry with
its event trace consisting of `initialHealth - 1` hit events followed by
exactly one `destroyed` event — so each projectile hit decrements health by
exactly 1, the destroyed event replaces the hit event on the hit where health
first reaches ≤ 0, it is emitted exactly once per drone, and the drone is
spliced out of the registry exactly once. -/
theorem weapons_health_events (laserSpeed : ℚ) (trace : List (ℚ × (ℕ → Aff)))
    (ls : List LaserW) (ds : List DroneW)
    (hids : (ds.map DroneW.id).Nodup) (hh : ∀ d ∈ ds, 1 ≤ d.health) :
    ∀ d0 ∈ ds,
      (∃ d', dronesFor (weaponsRun laserSpeed trace ls ds).2.1 d0.id = [d'] ∧
        ((eventsFor (weaponsRun laserSpeed trace ls ds).2.2 d0.id).length : ℤ) < d0.health ∧
        d'.health = d0.health -
          (eventsFor (weaponsRun laserSpeed trace ls ds).2.2 d0.id).length ∧
        eventsFor (weaponsRun laserSpeed trace ls ds).2.2 d0.id =
          List.replicate (eventsFor (weaponsRun laserSpeed trace ls ds).2.2 d0.id).length
            (WEvent.hit d0.id)) ∨
      (dronesFor (weaponsRun laserSpeed trace ls ds).2.1 d0.id = [] ∧
        eventsFor (weaponsRun laserSpeed trace ls ds).2.2 d0.id =
          List.replicate (d0.health - 1).toNat (WEvent.hit d0.id) ++
            [WEvent.destroyed d0.id]) := by
  intro d0 hd0
  have htidy : Tidy ds := tidy_of_nodup hids hh
  have htr := weaponsRun_perId laserSpeed trace ls ds htidy d0.id
  have hsingle : dronesFor ds d0.id = [d0] := dronesFor_eq_singleton hids hd0
  rcases htr with ⟨ha, _, _⟩ | ⟨d, hd, hhd, hcase⟩
  · rw [hsingle] at ha; cases ha
  · rw [hsingle] at hd
    injection hd with hda
    subst hda
    rcases hcase with ⟨k, d', hk, hev, hd', hhd'⟩ | ⟨hev, hgone⟩
    · refine Or.inl ⟨d', hd', ?_, ?_, ?_⟩
      · rw [hev, List.length_replicate]; exact hk
      · rw [hev, List.length_replicate]; omega
      · rw [hev, List.length_replicate]
    · exact Or.inr ⟨hgone, hev⟩

/-- C1 witness: the health/event theorem applied to a concrete registry of
one drone with health 2 and a one-tick run. -/
theorem weapons_health_events_witness :
    ((([⟨0, 2, Aff.id, Vec3.zero, ⟨1, 1, 1⟩⟩] : List DroneW).map DroneW.id).Nodup ∧
      (∀ d ∈ ([⟨0, 2, Aff.id, Vec3.zero, ⟨1, 1, 1⟩⟩] : List DroneW), 1 ≤ d.health)) ∧
    (∀ d0 ∈ ([⟨0, 2, Aff.id, Vec3.zero, ⟨1, 1, 1⟩⟩] : List DroneW),
      (∃ d', dronesFor (weaponsRun 1 [(1, fun _ => Aff.id)]
          [⟨Vec3.zero, Vec3.zero, 2⟩] [⟨0, 2, Aff.id, Vec3.zero, ⟨1, 1, 1⟩⟩]).2.1 d0.id = [d'] ∧
        ((eventsFor (weaponsRun 1 [(1, fun _ => Aff.id)]
          [⟨Vec3.zero, Vec3.zero, 2⟩] [⟨0, 2, Aff.id, Vec3.zero, ⟨1, 1, 1⟩⟩]).2.2 d0.id).length : ℤ) < d0.health ∧
        d'.health = d0.health -
          (eventsFor (weaponsRun 1 [(1, fun _ => Aff.id)]
            [⟨Vec3.zero, Vec3.zero, 2⟩] [⟨0, 2, Aff.id, Vec3.zero, ⟨1, 1, 1⟩⟩]).2.2 d0.id).length ∧
        eventsFor (weaponsRun 1 [(1, fun _ => Aff.id)]
            [⟨Vec3.zero, Vec3.zero, 2⟩] [⟨0, 2, Aff.id, Vec3.zero, ⟨1, 1, 1⟩⟩]).2.2 d0.id =
          List.replicate (eventsFor (weaponsRun 1 [(1, fun _ => Aff.id)]
            [⟨Vec3.zero, Vec3.zero, 2⟩] [⟨0, 2, Aff.id, Vec3.zero, ⟨1, 1, 1⟩⟩]).2.2 d0.id).length
            (WEvent.hit d0.id)) ∨
      (dronesFor (weaponsRun 1 [(1, fun _ => Aff.id)]
          [⟨Vec3.zero, Vec3.zero, 2⟩] [⟨0, 2, Aff.id, Vec3.zero, ⟨1, 1, 1⟩⟩]).2.1 d0.id = [] ∧
        eventsFor (weaponsRun 1 [(1, fun _ => Aff.id)]
            [⟨Vec3.zero, Vec3.zero, 2⟩] [⟨0, 2, Aff.id, Vec3.zero, ⟨1, 1, 1⟩⟩]).2.2 d0.id =
          List.replicate (d0.health - 1).toNat (WEvent.hit d0.id) ++
            [WEvent.destroyed d0.id])) := by
  refine ⟨⟨by simp, ?_⟩, ?_⟩
  · intro d hd
    rw [List.mem_singleton] at hd
    subst hd
    norm_num
  · exact weapons_health_events 1 [(1, fun _ => Aff.id)]
      [⟨Vec3.zero, Vec3.zero, 2⟩] [⟨0, 2, Aff.id, Vec3.zero, ⟨1, 1, 1⟩⟩]
      (by simp)
      (by intro d hd; rw [List.mem_singleton] at hd; subst hd; norm_num)

/-! Tractor-beam state machine (`useEnemies.ts` lines 516-536) and its random
delay source (`getRandomBeamDelay`, lines 69-73; `Math.random()` draws are
passed in as oracle values in `[0,1)`). -/

/-- Tractor-beam timing configuration (`config.tractorBeam`). -/
structure BeamCfg where
  delayMin : ℚ
  delayMax : ℚ
  duration : ℚ

/-- Embedding of `getRandomBeamDelay`: `delayMin + Math.random() * (delayMax -
delayMin)`, or `1` when the level has no tractor-beam config; `u` is the
`Math.random()` draw. -/
def getRandomBeamDelay (beam : Option BeamCfg) (u : ℚ) : ℚ :=
  match beam with
  | none => 1
  | some b => b.delayMin + u * (b.delayMax - b.delayMin)

/-- Initial beam timer assigned at spawn (`loadEnemies` line 320):
`getRandomBeamDelay() * Math.random()`. -/
def spawnBeamTimer (beam : Option BeamCfg) (u1 u2 : ℚ) : ℚ :=
  getRandomBeamDelay beam u1 * u2

/-- Beam state: `waiting` with seconds remaining, or `beaming` with progress
fraction. -/
inductive BeamSt where
  | waiting (timer : ℚ)
  | beaming (progress : ℚ)
deriving DecidableEq, Repr

/-- One tick of the beam state machine (`updateEnemies` lines 517-536):
waiting decrements the timer by `dt` and on `timer ≤ 0` enters beaming with
progress 0 (beam becomes visible, returned flag); beaming adds
`dt / duration` to progress and on `progress ≥ 1` re-enters waiting with a
fresh random delay (beam hidden).  `delay` is the oracle value
`getRandomBeamDelay()` would produce on this tick. -/
def beamStep (duration delay dt : ℚ) : BeamSt → BeamSt × Bool
  | .waiting t => if t - dt ≤ 0 then (.beaming 0, true) else (.waiting (t - dt), false)
  | .beaming p =>
    if 1 ≤ p + dt / duration then (.waiting delay, false)
    else (.beaming (p + dt / duration), false)

/-- Run of the beam machine over a trace of `(dt, delay)` ticks, tracking the
elapsed time since the last beam-visible transition and recording that
elapsed time (the gap between consecutive visible transitions) whenever the
beam becomes visible. -/
def beamRunGaps (duration : ℚ) : List (ℚ × ℚ) → BeamSt × ℚ → (BeamSt × ℚ) × List ℚ
  | [], se => (se, [])
  | (dt, delay) :: rest, (s, e) =>
    let out := beamStep duration delay dt s
    if out.2 then
      let next := beamRunGaps duration rest (out.1, 0)
      (next.1, (e + dt) :: next.2)
    else beamRunGaps duration rest (out.1, e + dt)

/-- Invariant for the beam run at the claim configuration
(`delayMin = 1, delayMax = 5, duration = 5/2`) with per-tick `dt ≤ bound`:
while beaming, the elapsed time equals `progress * duration`; while waiting,
the elapsed time plus remaining timer is at least `duration + delayMin` and
less than `duration + delayMax + bound`. -/
def BeamInv (bound : ℚ) : BeamSt × ℚ → Prop
  | (.beaming p, e) => e = p * (5/2) ∧ 0 ≤ p ∧ p < 1
  | (.waiting t, e) => 0 < t ∧ 7/2 ≤ e + t ∧ e + t < 15/2 + bound

lemma beamStep_inv {bound dt delay : ℚ} (hdt0 : 0 ≤ dt) (hdt1 : dt ≤ bound)
    (hdel1 : 1 ≤ delay) (hdel5 : delay < 5) {s : BeamSt} {e : ℚ}
    (hinv : BeamInv bound (s, e)) :
    BeamInv bound ((beamStep (5/2) delay dt s).1,
      if (beamStep (5/2) delay dt s).2 then 0 else e + dt) ∧
    ((beamStep (5/2) delay dt s).2 = true → 7/2 ≤ e + dt ∧ e + dt < 15/2 + 2 * bound) := by
  cases s with
  | waiting t =>
    obtain ⟨ht, hlo, hhi⟩ := hinv
    by_cases hcross : t - dt ≤ 0
    · rw [beamStep, if_pos hcross]
      constructor
      · simp only [if_true]
        refine ⟨by ring, le_refl 0, by norm_num⟩
      · intro _
        constructor
        · linarith
        · linarith
    · rw [beamStep, if_neg hcross]
      simp only [Bool.false_eq_true, if_false]
      constructor
      · refine ⟨by linarith, by linarith, by linarith⟩
      · intro hfalse
        cases hfalse
  | beaming p =>
    obtain ⟨he, hp0, hp1⟩ := hinv
    by_cases hcross : 1 ≤ p + dt / (5/2)
    · rw [beamStep, if_pos hcross]
      simp only [Bool.false_eq_true, if_false]
      constructor
      · refine ⟨by linarith, ?_, ?_⟩
        · have : (5:ℚ)/2 ≤ p * (5/2) + dt := by
            have := mul_le_mul_of_nonneg_right hcross (by norm_num : (0:ℚ) ≤ 5/2)
            calc (5:ℚ)/2 = 1 * (5/2) := by ring
            _ ≤ (p + dt / (5/2)) * (5/2) := this
            _ = p * (5/2) + dt := by ring
          linarith
        · have he5 : e < 5/2 := by nlinarith
          linarith
      · intro hfalse
        cases hfalse
    · rw [beamStep, if_neg hcross]
      simp only [Bool.false_eq_true, if_false]
      constructor
      · refine ⟨by rw [he]; ring, ?_, by linarith⟩
        have : 0 ≤ dt / (5/2) := by positivity
        linarith
      · intro hfalse
        cases hfalse

lemma beamRunGaps_bounds_aux (bound : ℚ) (trace : List (ℚ × ℚ))
    (htr : ∀ p ∈ trace, 0 ≤ p.1 ∧ p.1 ≤ bound ∧ 1 ≤ p.2 ∧ p.2 < 5) :
    ∀ se, BeamInv bound se →
      ∀ g ∈ (beamRunGaps (5/2) trace se).2, 7/2 ≤ g ∧ g < 15/2 + 2 * bound := by
  induction trace with
  | nil =>
    intro se _ g hg
    simp [beamRunGaps] at hg
  | cons p rest ih =>
    intro se hinv g hg
    obtain ⟨dt, delay⟩ := p
    obtain ⟨s, e⟩ := se
    obtain ⟨hdt0, hdt1, hdel1, hdel5⟩ := htr (dt, delay) (List.mem_cons_self ..)
    have hrest : ∀ q ∈ rest, 0 ≤ q.1 ∧ q.1 ≤ bound ∧ 1 ≤ q.2 ∧ q.2 < 5 :=
      fun q hq => htr q (List.mem_cons_of_mem _ hq)
    have hstep := beamStep_inv hdt0 hdt1 hdel1 hdel5 hinv
    by_cases hvis : (beamStep (5/2) delay dt s).2 = true
    · rw [beamRunGaps] at hg
      simp only [hvis, if_true] at hg
      rw [List.mem_cons] at hg
      rcases hg with hg | hg
      · subst hg
        exact hstep.2 hvis
      · have hinv2 := hstep.1
        rw [hvis, if_pos rfl] at hinv2
        exact ih hrest _ hinv2 g hg
    · rw [beamRunGaps] at hg
      simp only [hvis, if_false] at hg
      have hinv2 := hstep.1
      rw [if_neg hvis] at hinv2
      exact ih hrest _ hinv2 g hg

/-- C6 (amended): at the claim configuration (`delayMin = 1, delayMax = 5,
duration = 2.5`), for any tick trace whose `dt` values lie in `[0, bound]`
and whose random delays lie in `[1, 5)`, the elapsed time between two
consecutive beam-visible transitions is always at least 1 second (indeed at
least 3.5 s) and strictly less than `7.5 + 2 * bound` seconds: the discrete
tick can overshoot each of the two phase boundaries by up to one tick, so the
7.5 s bound holds only up to two tick lengths. -/
theorem beam_gap_bounds (bound : ℚ) (trace : List (ℚ × ℚ))
    (htr : ∀ p ∈ trace, 0 ≤ p.1 ∧ p.1 ≤ bound ∧ 1 ≤ p.2 ∧ p.2 < 5) :
    ∀ g ∈ (beamRunGaps (5/2) trace (BeamSt.beaming 0, 0)).2,
      1 ≤ g ∧ 7/2 ≤ g ∧ g < 15/2 + 2 * bound := by
  intro g hg
  have hinv : BeamInv bound (BeamSt.beaming 0, 0) := by
    refine ⟨by ring, le_refl 0, by norm_num⟩
  have := beamRunGaps_bounds_aux bound trace htr _ hinv g hg
  exact ⟨by linarith [this.1], this.1, this.2⟩

/-- C6 counterexample: with ticks of `dt = 4` seconds and a legal random
delay of `4.9 ∈ [1, 5)`, the machine goes visible, completes the beam on one
tick, waits two ticks, and goes visible again 12 seconds later — more than
the claimed maximum of 7.5 seconds between consecutive visible transitions. -/
theorem beam_gap_exceeds_claimed_bound :
    (beamRunGaps (5/2) [(4, 49/10), (4, 1), (4, 1)] (BeamSt.beaming 0, 0)).2 = [12] ∧
    ((0:ℚ) ≤ 4 ∧ (1:ℚ) ≤ 49/10 ∧ (49/10:ℚ) < 5) ∧
    ¬ ((12:ℚ) ≤ 15/2) := by
  refine ⟨?_, by norm_num, by norm_num⟩
  norm_num [beamRunGaps, beamStep]

/-- C6 witness: the gap-bound theorem applied to a concrete five-tick trace
(`dt = 1`, delay `2`) on which the beam completes one full cycle; the
recorded gap list is `[5]`. -/
theorem beam_gap_bounds_witness :
    (∀ p ∈ ([(1, 2), (1, 2), (1, 2), (1, 2), (1, 2)] : List (ℚ × ℚ)),
      0 ≤ p.1 ∧ p.1 ≤ 1 ∧ 1 ≤ p.2 ∧ p.2 < 5) ∧
    (beamRunGaps (5/2) [(1, 2), (1, 2), (1, 2), (1, 2), (1, 2)]
      (BeamSt.beaming 0, 0)).2 = [5] ∧
    (∀ g ∈ (beamRunGaps (5/2) [(1, 2), (1, 2), (1, 2), (1, 2), (1, 2)]
      (BeamSt.beaming 0, 0)).2, 1 ≤ g ∧ 7/2 ≤ g ∧ g < 15/2 + 2 * 1) := by
  refine ⟨?_, ?_, ?_⟩
  · intro p hp
    fin_cases hp <;> norm_num
  · norm_num [beamRunGaps, beamStep]
  · exact beam_gap_bounds 1 [(1, 2), (1, 2), (1, 2), (1, 2), (1, 2)]
      (by intro p hp; fin_cases hp <;> norm_num)

/-- C10: the spawn-time beam timer is a uniform `[delayMin, delayMax)` draw
multiplied by an independent uniform `[0,1)` draw, so it lies in
`[0, delayMax)` and can be strictly shorter than `delayMin` (for example when
the second draw is 0), unlike every waiting delay entered after a completed
beam cycle, which is a plain `getRandomBeamDelay` draw and therefore at least
`delayMin`. -/
theorem spawn_beam_timer_bounds (b : BeamCfg) (u1 u2 : ℚ)
    (hu1 : 0 ≤ u1 ∧ u1 < 1) (hu2 : 0 ≤ u2 ∧ u2 < 1)
    (hb : 0 < b.delayMin ∧ b.delayMin ≤ b.delayMax) :
    (0 ≤ spawnBeamTimer (some b) u1 u2 ∧ spawnBeamTimer (some b) u1 u2 < b.delayMax) ∧
    (∃ v1 v2, 0 ≤ v1 ∧ v1 < 1 ∧ 0 ≤ v2 ∧ v2 < 1 ∧
      spawnBeamTimer (some b) v1 v2 < b.delayMin) ∧
    (∀ u, 0 ≤ u → u < 1 →
      b.delayMin ≤ getRandomBeamDelay (some b) u ∧
      getRandomBeamDelay (some b) u ≤ b.delayMax) ∧
    (∀ delay dt p, 1 ≤ p + dt / b.duration →
      beamStep b.duration delay dt (BeamSt.beaming p) = (BeamSt.waiting delay, false)) := by
  obtain ⟨hu1a, hu1b⟩ := hu1
  obtain ⟨hu2a, hu2b⟩ := hu2
  obtain ⟨hba, hbb⟩ := hb
  have hD1 : b.delayMin ≤ getRandomBeamDelay (some b) u1 := by
    rw [getRandomBeamDelay]
    nlinarith
  have hD2 : getRandomBeamDelay (some b) u1 ≤ b.delayMax := by
    rw [getRandomBeamDelay]
    nlinarith
  refine ⟨⟨?_, ?_⟩, ?_, ?_, ?_⟩
  · rw [spawnBeamTimer]
    nlinarith
  · rw [spawnBeamTimer]
    nlinarith
  · refine ⟨0, 0, le_refl 0, by norm_num, le_refl 0, by norm_num, ?_⟩
    rw [spawnBeamTimer, getRandomBeamDelay]
    nlinarith
  · intro u hu0 hu1c
    rw [getRandomBeamDelay]
    constructor
    · nlinarith
    · nlinarith
  · intro delay dt p hcross
    rw [beamStep, if_pos hcross]

/-- C10 witness: the spawn-timer theorem applied at the embrium-defense style
configuration `delayMin = 1, delayMax = 5, duration = 2.5` with draws
`u1 = u2 = 1/2`. -/
theorem spawn_beam_timer_bounds_witness :
    ((0:ℚ) ≤ 1/2 ∧ (1/2:ℚ) < 1) ∧ ((0:ℚ) < 1 ∧ (1:ℚ) ≤ 5) ∧
    ((0 ≤ spawnBeamTimer (some ⟨1, 5, 5/2⟩) (1/2) (1/2) ∧
        spawnBeamTimer (some ⟨1, 5, 5/2⟩) (1/2) (1/2) < (5:ℚ)) ∧
      (∃ v1 v2, 0 ≤ v1 ∧ v1 < 1 ∧ 0 ≤ v2 ∧ v2 < 1 ∧
        spawnBeamTimer (some ⟨1, 5, 5/2⟩) v1 v2 < (1:ℚ)) ∧
      (∀ u, 0 ≤ u → u < 1 →
        (1:ℚ) ≤ getRandomBeamDelay (some ⟨1, 5, 5/2⟩) u ∧
        getRandomBeamDelay (some ⟨1, 5, 5/2⟩) u ≤ (5:ℚ)) ∧
      (∀ delay dt p, 1 ≤ p + dt / (5/2 : ℚ) →
        beamStep (5/2) delay dt (BeamSt.beaming p) = (BeamSt.waiting delay, false))) :=
  ⟨⟨by norm_num, by norm_num⟩, ⟨by norm_num, by norm_num⟩,
    spawn_beam_timer_bounds ⟨1, 5, 5/2⟩ (1/2) (1/2)
      ⟨by norm_num, by norm_num⟩ ⟨by norm_num, by norm_num⟩ ⟨by norm_num, by norm_num⟩⟩

/-! Victory evaluator (`Game.tsx` `renderLoop`, lines 287-360): initial enemy
count latch, gated victory check with its 100 ms anti-reset guard, the
best-time store update, and the start-timer latch (which runs after the
victory check).  React state reads that lag by one render are modelled as
per-tick input values. -/

/-- Victory condition from the level configuration. -/
inductive VictoryCond where
  | destroyAll
  | destroyCount (count : ℕ)
  | surviveTime (duration : ℚ)
deriving DecidableEq, Repr

/-- Victory-evaluator state: the refs and React state of `Game.tsx` that the
victory logic reads and writes.  Times are in milliseconds. -/
structure VState where
  initialCount : Option ℕ
  timerStart : Option ℚ
  timerStop : Option ℚ
  isVictory : Bool
  finalTime : Option ℚ
  bestStored : Option ℚ
  isNewBest : Bool
deriving DecidableEq, Repr

/-- Initial state: all latches unset. -/
def VState.init (best : Option ℚ) : VState :=
  ⟨none, none, none, false, none, best, false⟩

/-- Per-tick input to the victory evaluator: wall-clock `now`
(`performance.now()`, ms), the `droneCount` React state and the live
`drones.length`, the destroyed counter, and the `enemiesLoaded` flag. -/
structure VInput where
  now : ℚ
  droneCountState : ℕ
  dronesLength : ℕ
  destroyedCount : ℕ
  enemiesLoaded : Bool
deriving DecidableEq, Repr

/-- Truthiness of `timerStartRef.current` in JavaScript: `null` and `0` are
both falsy. -/
def timerStartTruthy (s : VState) : Prop :=
  ∃ t, s.timerStart = some t ∧ t ≠ 0

instance (s : VState) : Decidable (timerStartTruthy s) := by
  unfold timerStartTruthy
  cases h : s.timerStart with
  | none => exact isFalse (by simp [h])
  | some t => exact decidable_of_iff (t ≠ 0) (by simp [h])

/-- A positive initial enemy count has been latched. -/
def initialCountPos (s : VState) : Prop :=
  ∃ n, s.initialCount = some n ∧ 0 < n

instance (s : VState) : Decidable (initialCountPos s) := by
  unfold initialCountPos
  cases h : s.initialCount with
  | none => exact isFalse (by simp [h])
  | some n => exact decidable_of_iff (0 < n) (by simp [h])

/-- Initial-enemy-count latch (`Game.tsx` lines 289-294): once enemies are
loaded and the latch is unset, latch `droneCount > 0 ? droneCount :
drones.length` provided it is positive. -/
def latchInitialCount (i : VInput) (s : VState) : VState :=
  if i.enemiesLoaded ∧ s.initialCount = none then
    let currentCount := if i.droneCountState > 0 then i.droneCountState else i.dronesLength
    if currentCount > 0 then { s with initialCount := some currentCount } else s
  else s

/-- The victory condition evaluation proper (`Game.tsx` lines 315-334), given
the latched timer start `t`. -/
def victoryAchieved (cond : VictoryCond) (i : VInput) (s : VState) (t : ℚ) : Prop :=
  match cond with
  | .destroyAll =>
    (i.droneCountState = 0 ∨ i.dronesLength = 0) ∧ initialCountPos s
  | .destroyCount n => n ≤ i.destroyedCount
  | .surviveTime d => d ≤ (i.now - t) / 1000

instance (cond : VictoryCond) (i : VInput) (s : VState) (t : ℚ) :
    Decidable (victoryAchieved cond i s t) := by
  cases cond with
  | destroyAll =>
    exact inferInstanceAs (Decidable ((i.droneCountState = 0 ∨ i.dronesLength = 0) ∧
      initialCountPos s))
  | destroyCount n => exact inferInstanceAs (Decidable (n ≤ i.destroyedCount))
  | surviveTime d => exact inferInstanceAs (Decidable (d ≤ (i.now - t) / 1000))

/-- One tick of the victory evaluator (`Game.tsx` lines 287-360): latch the
initial count; then, if enemies are loaded, the initial count is latched
positive, the stop latch is unset, victory has not fired, the start latch is
truthy, and more than 100 ms of wall time have passed since the start latch,
evaluate the condition; on success latch the stop time, compute the final
time in seconds, set the victory flag, and update the stored best time if
strictly lower; finally latch the start timer if still unset and enemies are
loaded. -/
def victoryTick (cond : VictoryCond) (i : VInput) (s : VState) : VState :=
  let s1 := latchInitialCount i s
  let s2 : VState :=
    match s1.timerStart with
    | some t =>
      if i.enemiesLoaded = true ∧ initialCountPos s1 ∧
          s1.timerStop = none ∧ s1.isVictory = false ∧ t ≠ 0 ∧ 100 < i.now - t then
        if victoryAchieved cond i s1 t then
          let ft := (i.now - t) / 1000
          let s3 := { s1 with
            timerStop := some i.now
            finalTime := some ft
            isVictory := true }
          match s3.bestStored with
          | none => { s3 with isNewBest := true, bestStored := some ft }
          | some b =>
            if ft < b then { s3 with isNewBest := true, bestStored := some ft } else s3
        else s1
      else s1
    | none => s1
  if s2.timerStart = none ∧ i.enemiesLoaded = true then
    { s2 with timerStart := some i.now }
  else s2

/-- Victory evaluator run over a tick trace. -/
def victoryRun (cond : VictoryCond) : List VInput → VState → VState
  | [], s => s
  | i :: rest, s => victoryRun cond rest (victoryTick cond i s)

lemma latchInitialCount_isVictory (i : VInput) (s : VState) :
    (latchInitialCount i s).isVictory = s.isVictory := by
  simp only [latchInitialCount]
  repeat' split
  all_goals rfl

lemma latchInitialCount_timerStart (i : VInput) (s : VState) :
    (latchInitialCount i s).timerStart = s.timerStart := by
  simp only [latchInitialCount]
  repeat' split
  all_goals rfl

lemma latchInitialCount_of_some (i : VInput) {s : VState} {n : ℕ}
    (h : s.initialCount = some n) : latchInitialCount i s = s := by
  unfold latchInitialCount
  rw [if_neg]
  intro ⟨_, hnone⟩
  rw [h] at hnone
  cases hnone

lemma timerLatch_isVictory (i : VInput) (s2 : VState) :
    ((if s2.timerStart = none ∧ i.enemiesLoaded = true then
      { s2 with timerStart := some i.now } else s2) : VState).isVictory = s2.isVictory := by
  split <;> rfl

lemma timerLatch_finalTime (i : VInput) (s2 : VState) :
    ((if s2.timerStart = none ∧ i.enemiesLoaded = true then
      { s2 with timerStart := some i.now } else s2) : VState).finalTime = s2.finalTime := by
  split <;> rfl

lemma timerLatch_timerStop (i : VInput) (s2 : VState) :
    ((if s2.timerStart = none ∧ i.enemiesLoaded = true then
      { s2 with timerStart := some i.now } else s2) : VState).timerStop = s2.timerStop := by
  split <;> rfl

lemma victoryTick_keeps_false {i : VInput} {s : VState}
    (hcount : 0 < i.droneCountState ∧ 0 < i.dronesLength)
    (hvic : s.isVictory = false) :
    (victoryTick VictoryCond.destroyAll i s).isVictory = false := by
  have h1 : (latchInitialCount i s).isVictory = false := by
    rw [latchInitialCount_isVictory]; exact hvic
  simp only [victoryTick]
  rw [timerLatch_isVictory]
  split
  · split
    · split
      · exfalso
        rename_i hach
        have hach2 : (i.droneCountState = 0 ∨ i.dronesLength = 0) ∧
            initialCountPos (latchInitialCount i s) := hach
        rcases hach2.1 with h0 | h0 <;> omega
      · exact h1
    · exact h1
  · exact h1

/-- C3 counterexample: with the timer latched at `now = 1000` ms and all 3
drones destroyed by the tick at `now = 1050` ms, the code does not declare
victory on that tick (the `> 100 ms since timer start` guard fails), even
though the live drone count reached 0 there with a positive initial count;
victory fires only on the later tick at `now = 1200` ms, with `finalTime`
measured from the start latch. -/
theorem destroy_all_victory_not_same_tick :
    (victoryRun VictoryCond.destroyAll
        [⟨1000, 3, 3, 0, true⟩, ⟨1050, 0, 0, 3, true⟩]
        (VState.init none)).isVictory = false ∧
    (victoryRun VictoryCond.destroyAll
        [⟨1000, 3, 3, 0, true⟩, ⟨1050, 0, 0, 3, true⟩, ⟨1200, 0, 0, 3, true⟩]
        (VState.init none)).isVictory = true ∧
    (victoryRun VictoryCond.destroyAll
        [⟨1000, 3, 3, 0, true⟩, ⟨1050, 0, 0, 3, true⟩, ⟨1200, 0, 0, 3, true⟩]
        (VState.init none)).finalTime = some (1/5) := by
  refine ⟨?_, ?_, ?_⟩ <;>
    norm_num [victoryRun, victoryTick, latchInitialCount, victoryAchieved,
      initialCountPos, VState.init, Option.some_ne_none]

/-- C3 (amended): under the destroy-all condition, destroying fewer than all
drones never triggers victory; and from a latched state (initial count
positive, start latch `t ≠ 0`, no stop latch, no victory yet, enemies
loaded), a tick declares victory exactly when the live drone count is 0 and
more than 100 ms of wall time have passed since the start latch — so the
victory tick is the first such tick, not necessarily the tick on which the
count reached 0 — and on that tick `finalTime` equals the elapsed wall time
since the start latch, in seconds. -/
theorem destroy_all_victory_characterization :
    (∀ (inputs : List VInput) (best : Option ℚ),
      (∀ i ∈ inputs, 0 < i.droneCountState ∧ 0 < i.dronesLength) →
      (victoryRun VictoryCond.destroyAll inputs (VState.init best)).isVictory = false) ∧
    (∀ (i : VInput) (s : VState) (t : ℚ) (n : ℕ),
      s.isVictory = false → s.timerStop = none → s.timerStart = some t → t ≠ 0 →
      i.enemiesLoaded = true → s.initialCount = some n → 0 < n →
      (((victoryTick VictoryCond.destroyAll i s).isVictory = true) ↔
        ((i.droneCountState = 0 ∨ i.dronesLength = 0) ∧ 100 < i.now - t)) ∧
      ((i.droneCountState = 0 ∨ i.dronesLength = 0) → 100 < i.now - t →
        (victoryTick VictoryCond.destroyAll i s).finalTime = some ((i.now - t) / 1000) ∧
        (victoryTick VictoryCond.destroyAll i s).timerStop = some i.now)) := by
  constructor
  · intro inputs
    induction inputs with
    | nil => intro best _; rfl
    | cons i rest ih =>
      intro best hpos
      have hstep : (victoryTick VictoryCond.destroyAll i (VState.init best)).isVictory
          = false :=
        victoryTick_keeps_false (hpos i (List.mem_cons_self ..)) rfl
      have : ∀ s : VState, s.isVictory = false →
          (∀ j ∈ rest, 0 < j.droneCountState ∧ 0 < j.dronesLength) →
          (victoryRun VictoryCond.destroyAll rest s).isVictory = false := by
        clear ih hstep hpos
        induction rest with
        | nil => intro s hs _; exact hs
        | cons j rest2 ih2 =>
          intro s hs hpos2
          exact ih2 (victoryTick VictoryCond.destroyAll j s)
            (victoryTick_keeps_false (hpos2 j (List.mem_cons_self ..)) hs)
            (fun q hq => hpos2 q (List.mem_cons_of_mem _ hq))
      exact this (victoryTick VictoryCond.destroyAll i (VState.init best)) hstep
        (fun q hq => hpos q (List.mem_cons_of_mem _ hq))
  · intro i s t n hvic hstop hstart ht0 hload hinit hn
    have hlatch : latchInitialCount i s = s := latchInitialCount_of_some i hinit
    have hpos : initialCountPos s := ⟨n, hinit, hn⟩
    have hgate : i.enemiesLoaded = true ∧ initialCountPos s ∧
        s.timerStop = none ∧ s.isVictory = false ∧ t ≠ 0 ∧ 100 < i.now - t ↔
        (100 < i.now - t) := by
      constructor
      · exact fun h => h.2.2.2.2.2
      · exact fun h => ⟨hload, hpos, hstop, hvic, ht0, h⟩
    constructor
    · constructor
      · intro hwin
        by_contra hcontra
        rw [not_and_or] at hcontra
        have hnotach : ¬ ((i.droneCountState = 0 ∨ i.dronesLength = 0) ∧ 100 < i.now - t) := by
          rcases hcontra with h | h
          · exact fun hx => h hx.1
          · exact fun hx => h hx.2
        have hfalse : (victoryTick VictoryCond.destroyAll i s).isVictory = false := by
          simp only [victoryTick, hlatch, hstart]
          rw [timerLatch_isVictory]
          by_cases htime : 100 < i.now - t
          · rw [if_pos (hgate.mpr htime)]
            have hzero : ¬ (i.droneCountState = 0 ∨ i.dronesLength = 0) := by
              intro hx; exact hnotach ⟨hx, htime⟩
            rw [if_neg (show ¬ victoryAchieved VictoryCond.destroyAll i s t from
              fun hach =>
                hzero (show (i.droneCountState = 0 ∨ i.dronesLength = 0) ∧
                  initialCountPos s from hach).1)]
            exact hvic
          · rw [if_neg (fun hg => htime hg.2.2.2.2.2)]
            exact hvic
        rw [hfalse] at hwin
        cases hwin
      · intro hx
        obtain ⟨hzero, htime⟩ := hx
        simp only [victoryTick, hlatch, hstart]
        rw [timerLatch_isVictory]
        rw [if_pos (hgate.mpr htime), if_pos (show victoryAchieved VictoryCond.destroyAll i s t
          from ⟨hzero, hpos⟩)]
        cases hbest : s.bestStored with
        | none => simp only [hbest]
        | some b =>
          simp only [hbest]
          split <;> rfl
    · intro hzero htime
      constructor
      · simp only [victoryTick, hlatch, hstart]
        rw [timerLatch_finalTime]
        rw [if_pos (hgate.mpr htime), if_pos (show victoryAchieved VictoryCond.destroyAll i s t
          from ⟨hzero, hpos⟩)]
        cases hbest : s.bestStored with
        | none => simp only [hbest]
        | some b =>
          simp only [hbest]
          split <;> rfl
      · simp only [victoryTick, hlatch, hstart]
        rw [timerLatch_timerStop]
        rw [if_pos (hgate.mpr htime), if_pos (show victoryAchieved VictoryCond.destroyAll i s t
          from ⟨hzero, hpos⟩)]
        cases hbest : s.bestStored with
        | none => simp only [hbest]
        | some b =>
          simp only [hbest]
          split <;> rfl

/-- C3 witness: the characterization applied to a one-tick all-alive trace
(no victory) and to a concrete latched state at `now = 1200`, start latch
`t = 1000`, zero live drones (victory fires with `finalTime = 0.2 s`). -/
theorem destroy_all_victory_characterization_witness :
    ((∀ i ∈ ([⟨1000, 2, 2, 0, true⟩] : List VInput),
        0 < i.droneCountState ∧ 0 < i.dronesLength) ∧
      (victoryRun VictoryCond.destroyAll [⟨1000, 2, 2, 0, true⟩]
        (VState.init none)).isVictory = false) ∧
    ((((victoryTick VictoryCond.destroyAll ⟨1200, 0, 0, 3, true⟩
        ⟨some 3, some 1000, none, false, none, none, false⟩).isVictory = true) ↔
      ((((⟨1200, 0, 0, 3, true⟩ : VInput).droneCountState = 0 ∨
          (⟨1200, 0, 0, 3, true⟩ : VInput).dronesLength = 0)) ∧
        100 < (1200 : ℚ) - 1000)) ∧
      ((((⟨1200, 0, 0, 3, true⟩ : VInput).droneCountState = 0 ∨
          (⟨1200, 0, 0, 3, true⟩ : VInput).dronesLength = 0)) → 100 < (1200 : ℚ) - 1000 →
        (victoryTick VictoryCond.destroyAll ⟨1200, 0, 0, 3, true⟩
          ⟨some 3, some 1000, none, false, none, none, false⟩).finalTime =
            some (((1200 : ℚ) - 1000) / 1000) ∧
        (victoryTick VictoryCond.destroyAll ⟨1200, 0, 0, 3, true⟩
          ⟨some 3, some 1000, none, false, none, none, false⟩).timerStop =
            some (⟨1200, 0, 0, 3, true⟩ : VInput).now)) := by
  constructor
  · refine ⟨?_, ?_⟩
    · intro i hi
      rw [List.mem_singleton] at hi
      subst hi
      exact ⟨by norm_num, by norm_num⟩
    · exact destroy_all_victory_characterization.1 [⟨1000, 2, 2, 0, true⟩] none
        (by intro i hi; rw [List.mem_singleton] at hi; subst hi; exact ⟨by norm_num, by norm_num⟩)
  · exact destroy_all_victory_characterization.2 ⟨1200, 0, 0, 3, true⟩
      ⟨some 3, some 1000, none, false, none, none, false⟩ 1000 3
      rfl rfl rfl (by norm_num) rfl rfl (by norm_num)

/-! Enemy movement scratch state (`useEnemies.ts` `updateEnemies`): the
orbital branch (lines 348-379) and the stationary branch (lines 437-440),
together with spawn-time position assignment in `loadEnemies`. -/

/-- Environment collision sphere (config `CollisionSphere`). -/
structure CBody where
  center : Vec3
  radius : ℚ
deriving DecidableEq, Repr

/-- Scratch fields of a drone used by the orbital movement model. -/
structure OrbitalDrone where
  angle : ℚ
  speed : ℚ
  tilt : ℚ
  altitude : ℚ
deriving DecidableEq, Repr

/-- Radius of the first environment collision body, 0 if there are none.
Stated from the spec sentence defining `surfaceRadius`, for comparison with
the code's computation. -/
def specSurfaceRadius (bodies : List CBody) : ℚ :=
  match bodies with
  | [] => 0
  | b :: _ => b.radius

/-- The `surfaceRadius` computed by `updateEnemies` (lines 349-353): it is
the first collision body's radius only when the tractor beam is enabled and
at least one body exists, and 0 otherwise — in particular 0 whenever the
level has no (enabled) tractor beam, even if collision bodies exist. -/
def surfaceRadius (tractorBeamEnabled : Bool) (bodies : List CBody) : ℚ :=
  if tractorBeamEnabled = true ∧ bodies ≠ [] then specSurfaceRadius bodies else 0

/-- Orbit radius of the orbital branch (line 363): `altitude + surfaceRadius`. -/
def orbitalRadius (d : OrbitalDrone) (tractorBeamEnabled : Bool)
    (bodies : List CBody) : ℚ :=
  d.altitude + surfaceRadius tractorBeamEnabled bodies

/-- Angular rate of the orbital branch (lines 364-365):
`min(speed, maxSpeed / radius)`.  JavaScript `maxSpeed / 0` is `Infinity` and
`Math.min(speed, Infinity) = speed`, so the `radius = 0` case is embedded
explicitly. -/
def orbitalOmega (maxSpeed : ℚ) (d : OrbitalDrone) (radius : ℚ) : ℚ :=
  if radius = 0 then d.speed else min d.speed (maxSpeed / radius)

/-- Orbit angle advanced from the wall clock (line 366):
`drone.angle + nowMs * omega`. -/
def orbitalAngle (nowMs : ℚ) (d : OrbitalDrone) (omega : ℚ) : ℚ :=
  d.angle + nowMs * omega

/-- C7 counterexample: a level whose tractor beam is disabled but that has a
collision body of radius 7 — the code computes orbit radius
`altitude + 0 = 2`, not `altitude + 7` as the claim (first body's radius
regardless of the beam) would require. -/
theorem orbitalRadius_ignores_bodies_without_beam :
    orbitalRadius ⟨0, 1, 0, 2⟩ false [⟨Vec3.zero, 7⟩] = 2 ∧
    specSurfaceRadius [⟨Vec3.zero, 7⟩] = 7 ∧
    orbitalRadius ⟨0, 1, 0, 2⟩ false [⟨Vec3.zero, 7⟩] ≠
      (⟨0, 1, 0, 2⟩ : OrbitalDrone).altitude + specSurfaceRadius [⟨Vec3.zero, 7⟩] := by
  refine ⟨?_, rfl, ?_⟩ <;>
    norm_num [orbitalRadius, surfaceRadius, specSurfaceRadius]

/-- C7 (amended): the orbit radius is `altitude + surfaceRadius` where
`surfaceRadius` is the first collision body's radius only when the tractor
beam is enabled and a body exists (not merely when a body exists); the
angular rate is `min(speed, maxSpeed / radius)` for positive radius; and the
angle advances by `nowMs * omega` from the wall clock. -/
theorem orbital_radius_omega (d : OrbitalDrone) (maxSpeed nowMs : ℚ)
    (bodies : List CBody) (hb : bodies ≠ []) :
    (orbitalRadius d true bodies = d.altitude + specSurfaceRadius bodies) ∧
    (∀ bodies2 : List CBody, orbitalRadius d false bodies2 = d.altitude) ∧
    (∀ radius : ℚ, 0 < radius →
      orbitalOmega maxSpeed d radius = min d.speed (maxSpeed / radius)) ∧
    (∀ omega : ℚ, orbitalAngle nowMs d omega = d.angle + nowMs * omega) := by
  refine ⟨?_, ?_, ?_, fun _ => rfl⟩
  · rw [orbitalRadius, surfaceRadius, if_pos ⟨rfl, hb⟩]
  · intro bodies2
    rw [orbitalRadius, surfaceRadius, if_neg]
    · ring
    · intro ⟨hfalse, _⟩
      cases hfalse
  · intro radius hr
    rw [orbitalOmega, if_neg (ne_of_gt hr)]

/-- C7 witness: the amended orbital theorem applied to a concrete drone
(altitude 2, speed 1) over a planet of radius 7. -/
theorem orbital_radius_omega_witness :
    ([⟨Vec3.zero, 7⟩] : List CBody) ≠ [] ∧
    ((orbitalRadius ⟨0, 1, 0, 2⟩ true [⟨Vec3.zero, 7⟩] =
        (⟨0, 1, 0, 2⟩ : OrbitalDrone).altitude + specSurfaceRadius [⟨Vec3.zero, 7⟩]) ∧
      (∀ bodies2 : List CBody, orbitalRadius ⟨0, 1, 0, 2⟩ false bodies2 =
        (⟨0, 1, 0, 2⟩ : OrbitalDrone).altitude) ∧
      (∀ radius : ℚ, 0 < radius →
        orbitalOmega 3 ⟨0, 1, 0, 2⟩ radius =
          min (⟨0, 1, 0, 2⟩ : OrbitalDrone).speed (3 / radius)) ∧
      (∀ omega : ℚ, orbitalAngle 500 ⟨0, 1, 0, 2⟩ omega =
        (⟨0, 1, 0, 2⟩ : OrbitalDrone).angle + 500 * omega)) :=
  ⟨by simp, orbital_radius_omega ⟨0, 1, 0, 2⟩ 3 500 [⟨Vec3.zero, 7⟩] (by simp)⟩

/-- The stationary branch of `getRandomPosition` (`useEnemies.ts` lines
117-121): `positions[index % positions.length]`; `none` models the undefined
lookup on an empty list. -/
def getRandomPositionStationary (positions : List Vec3) (index : ℕ) : Option Vec3 :=
  positions.get? (index % positions.length)

/-- Position of a drone root node right after `loadEnemies` (lines 146-323):
the code creates the root as `new TransformNode(...)` whose position defaults
to the origin, then sets only parent, rotation quaternion and scaling —
`root.position` is never assigned and `getRandomPosition` is never called at
spawn, so every drone spawns at the origin regardless of its index and of the
configured position list. -/
def spawnedDronePosition (_droneIndex : ℕ) : Vec3 := Vec3.zero

/-- Stationary branch of `updateEnemies` (lines 437-440): no movement. -/
def stationaryUpdate (p : Vec3) : Vec3 := p

/-- C8: evidence for the spawn-assignment bug.  The stationary lookup that
the claim (and the comment at `useEnemies.ts` line 438, which says the
position was set during load) describe would give `positions[0] = (5,0,0)`,
but the spawned drone position is the origin for every index, and the
stationary update indeed never changes a position. -/
theorem stationary_spawn_ignores_positions :
    (∀ droneIndex : ℕ, spawnedDronePosition droneIndex = Vec3.zero) ∧
    getRandomPositionStationary [⟨5, 0, 0⟩] 0 = some ⟨5, 0, 0⟩ ∧
    spawnedDronePosition 0 ≠ (⟨5, 0, 0⟩ : Vec3) ∧
    (∀ p : Vec3, stationaryUpdate p = p) := by
  refine ⟨fun _ => rfl, rfl, ?_, fun _ => rfl⟩
  intro h
  rw [spawnedDronePosition, Vec3.zero] at h
  injection h with h1
  exact absurd h1 (by norm_num)

/-! Player controller (`usePlayer`-style code in `bounds.ts`, `updatePlayer`,
lines 231-321), embedded over the reals.  The player node's orientation lives
in the external scene graph; the `forward` vector parameter stands for
`player.getDirection(Vector3.Forward())` after this tick's rotations.
Babylon's `Vector3.normalize` leaves a vector of length 0 (or 1) unchanged,
which is embedded explicitly in `bNormalize`. -/

section PlayerController

open scoped Classical

/-- Real 3-vector for the player controller. -/
structure RVec3 where
  x : ℝ
  y : ℝ
  z : ℝ

namespace RVec3

def add (a b : RVec3) : RVec3 := ⟨a.x + b.x, a.y + b.y, a.z + b.z⟩

def sub (a b : RVec3) : RVec3 := ⟨a.x - b.x, a.y - b.y, a.z - b.z⟩

def scale (a : RVec3) (k : ℝ) : RVec3 := ⟨a.x * k, a.y * k, a.z * k⟩

def zero : RVec3 := ⟨0, 0, 0⟩

/-- Euclidean length, Babylon `Vector3.length`. -/
noncomputable def len (v : RVec3) : ℝ := Real.sqrt (v.x ^ 2 + v.y ^ 2 + v.z ^ 2)

end RVec3

/-- Babylon.js `Vector3.normalize` via `normalizeFromLength`: a vector whose
length is 0 or 1 is returned unchanged (no NaN from dividing by zero, but
also no substituted direction); otherwise scale by the reciprocal length. -/
noncomputable def bNormalize (v : RVec3) : RVec3 :=
  if v.len = 0 ∨ v.len = 1 then v else v.scale (1 / v.len)

/-- Player physical configuration (`config.player`). -/
structure PlayerCfg where
  maxSpeed : ℝ
  thrustAccel : ℝ
  angularAccel : ℝ
  linearDamping : ℝ
  angularDamping : ℝ
  radius : ℝ

/-- Control-state snapshot. -/
structure Ctl where
  throttle : Bool
  reverse : Bool
  fire : Bool
  yawLeft : Bool
  yawRight : Bool
  pitchUp : Bool
  pitchDown : Bool
  rollLeft : Bool
  rollRight : Bool

/-- Player simulation state: position and the two velocity vectors. -/
structure PState where
  position : RVec3
  linVel : RVec3
  angVel : RVec3

/-- Environment collision body for the player (center + radius). -/
structure RBody where
  center : RVec3
  radius : ℝ

/-- Angular velocity update (`updatePlayer` lines 241-257): per-axis ±1 input
from opposing key pairs, angular acceleration, then exponential damping
`angularDamping ^ (dt * 60)`. -/
noncomputable def angularStep (cfg : PlayerCfg) (dt : ℝ) (c : Ctl) (av : RVec3) : RVec3 :=
  let yawInput : ℝ := (if c.yawRight then 1 else 0) - (if c.yawLeft then 1 else 0)
  let pitchInput : ℝ := (if c.pitchUp then 1 else 0) - (if c.pitchDown then 1 else 0)
  let rollInput : ℝ := (if c.rollLeft then 1 else 0) - (if c.rollRight then 1 else 0)
  (RVec3.mk (av.x + pitchInput * cfg.angularAccel * dt)
      (av.y + yawInput * cfg.angularAccel * dt)
      (av.z + rollInput * cfg.angularAccel * dt)).scale
    (cfg.angularDamping ^ (dt * 60))

/-- Linear thrust (`updatePlayer` lines 270-279): forward thrust when
throttling, reverse thrust weaker by the factor 0.7. -/
noncomputable def thrustVel (cfg : PlayerCfg) (forward : RVec3) (dt : ℝ) (c : Ctl)
    (lv : RVec3) : RVec3 :=
  let lv1 := if c.throttle then lv.add (forward.scale (cfg.thrustAccel * dt)) else lv
  if c.reverse then lv1.add (forward.scale (-cfg.thrustAccel * 0.7 * dt)) else lv1

/-- Linear damping (`updatePlayer` lines 281-284):
`linearDamping ^ (dt * 60)`. -/
noncomputable def dampedVel (cfg : PlayerCfg) (dt : ℝ) (lv : RVec3) : RVec3 :=
  lv.scale (cfg.linearDamping ^ (dt * 60))

/-- Thrust, damping, then the speed clamp (`updatePlayer` lines 286-290): if
speed exceeds `maxSpeed`, rescale uniformly to `maxSpeed`. -/
noncomputable def clampedVel (cfg : PlayerCfg) (forward : RVec3) (dt : ℝ) (c : Ctl)
    (lv : RVec3) : RVec3 :=
  let lv2 := dampedVel cfg dt (thrustVel cfg forward dt c lv)
  if cfg.maxSpeed < lv2.len then lv2.scale (cfg.maxSpeed / lv2.len) else lv2

/-- Tentative next position (`updatePlayer` lines 292-294). -/
noncomputable def tentativePos (cfg : PlayerCfg) (forward : RVec3) (dt : ℝ) (c : Ctl)
    (s : PState) : RVec3 :=
  s.position.add ((clampedVel cfg forward dt c s.linVel).scale dt)

/-- Collision scan (`updatePlayer` lines 296-312): the first body (in list
order) with `|nextPosition - center| < radius + playerRadius` wins; later
bodies are not checked. -/
noncomputable def firstCollider (playerRadius : ℝ) (p : RVec3) : List RBody → Option RBody
  | [] => none
  | b :: rest =>
    if (p.sub b.center).len < b.radius + playerRadius then some b
    else firstCollider playerRadius p rest

/-- One tick of the player controller (`updatePlayer` lines 231-318),
returning the new state and the speed returned for the HUD.  On a collision
the player is placed at `center + normalize(toShip) * (bodyRadius +
playerRadius)` and the velocity is damped by the restitution factor 0.2;
otherwise the tentative position is committed. -/
noncomputable def updatePlayer (cfg : PlayerCfg) (forward : RVec3) (dt : ℝ) (c : Ctl)
    (bodies : List RBody) (s : PState) : PState × ℝ :=
  let av := angularStep cfg dt c s.angVel
  let lv := clampedVel cfg forward dt c s.linVel
  let nextPos := tentativePos cfg forward dt c s
  match firstCollider cfg.radius nextPos bodies with
  | some b =>
    let toShip := bNormalize (nextPos.sub b.center)
    let lv2 := lv.scale 0.2
    (⟨b.center.add (toShip.scale (b.radius + cfg.radius)), lv2, av⟩, lv2.len)
  | none => (⟨nextPos, lv, av⟩, lv.len)

/-- Player run over a trace of `(forward, dt, controls)` ticks. -/
noncomputable def playerRun (cfg : PlayerCfg) (bodies : List RBody) :
    List (RVec3 × ℝ × Ctl) → PState → PState
  | [], s => s
  | (f, dt, c) :: rest, s =>
    playerRun cfg bodies rest (updatePlayer cfg f dt c bodies s).1

lemma len_nonneg (v : RVec3) : 0 ≤ v.len := Real.sqrt_nonneg _

lemma len_scale (v : RVec3) (k : ℝ) : (v.scale k).len = |k| * v.len := by
  rw [RVec3.len, RVec3.len, RVec3.scale]
  have h : (v.x * k) ^ 2 + (v.y * k) ^ 2 + (v.z * k) ^ 2 =
      k ^ 2 * (v.x ^ 2 + v.y ^ 2 + v.z ^ 2) := by ring
  rw [h, Real.sqrt_mul (sq_nonneg k), Real.sqrt_sq_eq_abs]

lemma bNormalize_len {v : RVec3} (h : v.len ≠ 0) : (bNormalize v).len = 1 := by
  rw [bNormalize]
  by_cases h1 : v.len = 1
  · rw [if_pos (Or.inr h1)]
    exact h1
  · rw [if_neg (by intro hx; rcases hx with hx | hx; exact h hx; exact h1 hx)]
    rw [len_scale]
    have hpos : 0 < v.len := lt_of_le_of_ne (len_nonneg v) (Ne.symm h)
    rw [abs_of_pos (by positivity)]
    field_simp

lemma clampedVel_len_le (cfg : PlayerCfg) (forward : RVec3) (dt : ℝ) (c : Ctl)
    (lv : RVec3) (hmax : 0 ≤ cfg.maxSpeed) :
    (clampedVel cfg forward dt c lv).len ≤ cfg.maxSpeed := by
  rw [clampedVel]
  set u := dampedVel cfg dt (thrustVel cfg forward dt c lv) with hu
  by_cases hc : cfg.maxSpeed < u.len
  · rw [if_pos hc, len_scale]
    have hupos : 0 < u.len := lt_of_le_of_lt hmax hc
    rw [abs_of_nonneg (div_nonneg hmax (le_of_lt hupos))]
    rw [div_mul_cancel₀ _ (ne_of_gt hupos)]
  · rw [if_neg hc]
    exact le_of_not_lt hc

/-- C5: after one player-controller tick — thrust, damping, clamp, and
collision resolution (which only shrinks velocity by the 0.2 restitution
factor) — the linear velocity magnitude never exceeds the configured
`maxSpeed`, for every prior state and control input; consequently it holds
after each tick of any nonempty tick sequence, throttle held or not. -/
theorem player_speed_never_exceeds_max (cfg : PlayerCfg) (bodies : List RBody)
    (hmax : 0 ≤ cfg.maxSpeed) :
    (∀ (forward : RVec3) (dt : ℝ) (c : Ctl) (s : PState),
      (updatePlayer cfg forward dt c bodies s).1.linVel.len ≤ cfg.maxSpeed) ∧
    (∀ (ticks : List (RVec3 × ℝ × Ctl)) (s : PState), ticks ≠ [] →
      (playerRun cfg bodies ticks s).linVel.len ≤ cfg.maxSpeed) := by
  have hsingle : ∀ (forward : RVec3) (dt : ℝ) (c : Ctl) (s : PState),
      (updatePlayer cfg forward dt c bodies s).1.linVel.len ≤ cfg.maxSpeed := by
    intro forward dt c s
    have hclamp := clampedVel_len_le cfg forward dt c s.linVel hmax
    rw [updatePlayer]
    cases hcol : firstCollider cfg.radius (tentativePos cfg forward dt c s) bodies with
    | some b =>
      simp only [hcol]
      rw [len_scale]
      have h02 : |(0.2 : ℝ)| = 0.2 := by rw [abs_of_pos]; norm_num
      rw [h02]
      nlinarith [len_nonneg (clampedVel cfg forward dt c s.linVel)]
    | none =>
      simp only [hcol]
      exact hclamp
  refine ⟨hsingle, ?_⟩
  intro ticks
  induction ticks with
  | nil => intro s h; exact absurd rfl h
  | cons t rest ih =>
    intro s _
    obtain ⟨f, dt, c⟩ := t
    rw [playerRun]
    cases rest with
    | nil =>
      rw [playerRun]
      exact hsingle f dt c s
    | cons t2 rest2 =>
      exact ih (updatePlayer cfg f dt c bodies s).1 (by intro h; cases h)

/-- C5 witness: the speed bound applied at a concrete configuration
(`maxSpeed = 1`) with throttle held from the zero state. -/
theorem player_speed_never_exceeds_max_witness :
    (0 : ℝ) ≤ (1 : ℝ) ∧
    ((∀ (forward : RVec3) (dt : ℝ) (c : Ctl) (s : PState),
      (updatePlayer ⟨1, 1, 1, 1, 1, 1/2⟩ forward dt c [] s).1.linVel.len ≤
        (⟨1, 1, 1, 1, 1, 1/2⟩ : PlayerCfg).maxSpeed) ∧
    (∀ (ticks : List (RVec3 × ℝ × Ctl)) (s : PState), ticks ≠ [] →
      (playerRun ⟨1, 1, 1, 1, 1, 1/2⟩ [] ticks s).linVel.len ≤
        (⟨1, 1, 1, 1, 1, 1/2⟩ : PlayerCfg).maxSpeed)) :=
  ⟨by norm_num, player_speed_never_exceeds_max ⟨1, 1, 1, 1, 1, 1/2⟩ [] (by norm_num)⟩

lemma firstCollider_some {pr : ℝ} {p : RVec3} {bodies : List RBody} {b : RBody}
    (h : firstCollider pr p bodies = some b) :
    (p.sub b.center).len < b.radius + pr := by
  induction bodies with
  | nil => cases h
  | cons a rest ih =>
    rw [firstCollider] at h
    by_cases hcond : (p.sub a.center).len < a.radius + pr
    · rw [if_pos hcond] at h
      injection h with h
      subst h
      exact hcond
    · rw [if_neg hcond] at h
      exact ih h

lemma add_sub_cancel_left_vec (a v : RVec3) : (a.add v).sub a = v := by
  cases a
  cases v
  simp only [RVec3.add, RVec3.sub, RVec3.mk.injEq]
  refine ⟨by ring, by ring, by ring⟩

lemma sub_self_vec (v : RVec3) : v.sub v = ⟨0, 0, 0⟩ := by
  cases v
  simp only [RVec3.sub, RVec3.mk.injEq]
  refine ⟨by ring, by ring, by ring⟩

lemma add_zero_scale_vec (a : RVec3) (m : ℝ) :
    a.add ((RVec3.mk 0 0 0).scale m) = a := by
  cases a
  simp only [RVec3.add, RVec3.scale, RVec3.mk.injEq]
  refine ⟨by ring, by ring, by ring⟩

lemma len_zero_vec : (RVec3.mk 0 0 0).len = 0 := by
  rw [RVec3.len]
  norm_num

lemma bNormalize_zero : bNormalize (RVec3.mk 0 0 0) = RVec3.mk 0 0 0 := by
  rw [bNormalize, if_pos (Or.inl len_zero_vec)]

/-- C4 (amended): when the tentative next position lies strictly within
`bodyRadius + playerRadius` of some collision body's center — the first such
body in scan order — and is not exactly at that center, one controller tick
places the player at distance exactly `bodyRadius + playerRadius` from the
center along the outward normal, scales the linear velocity by the
restitution factor 0.2, and checks no further bodies (the result equals the
result with only that body present); with no colliding body the tentative
position is committed and the clamped velocity kept unchanged.  The
at-the-exact-center case is excluded: there Babylon's `normalize` leaves the
zero vector unchanged and the player is placed at the center instead. -/
theorem player_collision_pushout (cfg : PlayerCfg) (forward : RVec3) (dt : ℝ) (c : Ctl)
    (bodies : List RBody) (s : PState) (hr : 0 ≤ cfg.radius) :
    (∀ b : RBody,
      firstCollider cfg.radius (tentativePos cfg forward dt c s) bodies = some b →
      0 ≤ b.radius →
      ((tentativePos cfg forward dt c s).sub b.center).len ≠ 0 →
      (((updatePlayer cfg forward dt c bodies s).1.position).sub b.center).len =
          b.radius + cfg.radius ∧
        (updatePlayer cfg forward dt c bodies s).1.linVel =
          (clampedVel cfg forward dt c s.linVel).scale 0.2 ∧
        updatePlayer cfg forward dt c bodies s = updatePlayer cfg forward dt c [b] s) ∧
    (firstCollider cfg.radius (tentativePos cfg forward dt c s) bodies = none →
      (updatePlayer cfg forward dt c bodies s).1.position =
          tentativePos cfg forward dt c s ∧
        (updatePlayer cfg forward dt c bodies s).1.linVel =
          clampedVel cfg forward dt c s.linVel) := by
  constructor
  · intro b hb hrb hne
    refine ⟨?_, ?_, ?_⟩
    · simp only [updatePlayer, hb]
      rw [add_sub_cancel_left_vec, len_scale, bNormalize_len hne, mul_one,
        abs_of_nonneg (add_nonneg hrb hr)]
    · simp only [updatePlayer, hb]
    · have hcond := firstCollider_some hb
      have hone : firstCollider cfg.radius (tentativePos cfg forward dt c s) [b] = some b := by
        rw [firstCollider, if_pos hcond]
      simp only [updatePlayer, hb, hone]
  · intro hnone
    constructor
    · simp only [updatePlayer, hnone]
    · simp only [updatePlayer, hnone]

/-- C4 witness: the push-out theorem applied to a concrete tick — player at
`(1,0,0)` with zero velocity, body of radius 1 at the origin, player radius
`1/2` — where the tentative position collides at distance 1 from the center
and the player is pushed out to distance `3/2`. -/
theorem player_collision_pushout_witness :
    (0 : ℝ) ≤ (⟨1, 1, 1, 1, 1, 1/2⟩ : PlayerCfg).radius ∧
    firstCollider (⟨1, 1, 1, 1, 1, 1/2⟩ : PlayerCfg).radius
      (tentativePos ⟨1, 1, 1, 1, 1, 1/2⟩ RVec3.zero 0
        ⟨false, false, false, false, false, false, false, false, false⟩
        ⟨⟨1, 0, 0⟩, RVec3.zero, RVec3.zero⟩)
      [⟨RVec3.zero, 1⟩] = some ⟨RVec3.zero, 1⟩ ∧
    (0 : ℝ) ≤ (1 : ℝ) ∧
    ((tentativePos ⟨1, 1, 1, 1, 1, 1/2⟩ RVec3.zero 0
        ⟨false, false, false, false, false, false, false, false, false⟩
        ⟨⟨1, 0, 0⟩, RVec3.zero, RVec3.zero⟩).sub RVec3.zero).len ≠ 0 ∧
    (((updatePlayer ⟨1, 1, 1, 1, 1, 1/2⟩ RVec3.zero 0
        ⟨false, false, false, false, false, false, false, false, false⟩
        [⟨RVec3.zero, 1⟩]
        ⟨⟨1, 0, 0⟩, RVec3.zero, RVec3.zero⟩).1.position).sub RVec3.zero).len =
      (1 : ℝ) + (⟨1, 1, 1, 1, 1, 1/2⟩ : PlayerCfg).radius := by
  have htent : tentativePos ⟨1, 1, 1, 1, 1, 1/2⟩ RVec3.zero 0
      ⟨false, false, false, false, false, false, false, false, false⟩
      ⟨⟨1, 0, 0⟩, RVec3.zero, RVec3.zero⟩ = ⟨1, 0, 0⟩ := by
    norm_num [tentativePos, clampedVel, dampedVel, thrustVel, RVec3.add, RVec3.scale,
      RVec3.zero, RVec3.len, Real.one_rpow, Bool.false_eq_true]
  have hlen : ((RVec3.mk 1 0 0).sub RVec3.zero).len = 1 := by
    norm_num [RVec3.sub, RVec3.zero, RVec3.len]
  have hcol : firstCollider (1/2 : ℝ)
      (RVec3.mk 1 0 0) [⟨RVec3.zero, 1⟩] = some ⟨RVec3.zero, 1⟩ := by
    rw [firstCollider, if_pos]
    rw [hlen]
    norm_num
  have hb : firstCollider (⟨1, 1, 1, 1, 1, 1/2⟩ : PlayerCfg).radius
      (tentativePos ⟨1, 1, 1, 1, 1, 1/2⟩ RVec3.zero 0
        ⟨false, false, false, false, false, false, false, false, false⟩
        ⟨⟨1, 0, 0⟩, RVec3.zero, RVec3.zero⟩)
      [⟨RVec3.zero, 1⟩] = some ⟨RVec3.zero, 1⟩ := by
    rw [htent]
    exact hcol
  have hne : ((tentativePos ⟨1, 1, 1, 1, 1, 1/2⟩ RVec3.zero 0
      ⟨false, false, false, false, false, false, false, false, false⟩
      ⟨⟨1, 0, 0⟩, RVec3.zero, RVec3.zero⟩).sub RVec3.zero).len ≠ 0 := by
    rw [htent, hlen]
    norm_num
  refine ⟨by norm_num, hb, by norm_num, hne, ?_⟩
  have := (player_collision_pushout ⟨1, 1, 1, 1, 1, 1/2⟩ RVec3.zero 0
    ⟨false, false, false, false, false, false, false, false, false⟩
    [⟨RVec3.zero, 1⟩] ⟨⟨1, 0, 0⟩, RVec3.zero, RVec3.zero⟩ (by norm_num)).1
    ⟨RVec3.zero, 1⟩ hb (by norm_num) hne
  exact this.1

/-- C4 counterexample: with the tentative position exactly at the body's
center (distance 0, which is within `bodyRadius + playerRadius`), the claim
would place the player at distance `3/2` from the center, but the code leaves
the zero `toShip` vector unchanged under Babylon's `normalize` and places the
player exactly at the center, at distance 0. -/
theorem player_collision_pushout_at_center_fails :
    (((updatePlayer ⟨1, 1, 1, 1, 1, 1/2⟩ RVec3.zero 0
        ⟨false, false, false, false, false, false, false, false, false⟩
        [⟨RVec3.zero, 1⟩]
        ⟨RVec3.zero, RVec3.zero, RVec3.zero⟩).1.position).sub
      (RVec3.zero : RVec3)).len = 0 ∧
    ((0 : ℝ) ≠ 1 + 1/2) := by
  constructor
  · have htent : tentativePos ⟨1, 1, 1, 1, 1, 1/2⟩ RVec3.zero 0
        ⟨false, false, false, false, false, false, false, false, false⟩
        ⟨RVec3.zero, RVec3.zero, RVec3.zero⟩ = RVec3.zero := by
      norm_num [tentativePos, clampedVel, dampedVel, thrustVel, RVec3.add, RVec3.scale,
        RVec3.zero, RVec3.len, Real.one_rpow, Bool.false_eq_true]
    have hcol2 : firstCollider ((1:ℝ)/2) RVec3.zero [⟨RVec3.zero, 1⟩] =
        some ⟨RVec3.zero, 1⟩ := by
      rw [firstCollider, if_pos]
      rw [show (RVec3.zero.sub (⟨RVec3.zero, (1:ℝ)⟩ : RBody).center) = RVec3.mk 0 0 0
        from sub_self_vec _]
      rw [len_zero_vec]
      norm_num
    simp only [updatePlayer, htent, hcol2, sub_self_vec, bNormalize_zero,
      add_zero_scale_vec, len_zero_vec]
  · norm_num

/-- C9 (amended): a zero-length `toShip` vector (tentative position exactly
at a collision body's center) is never normalized to NaN — Babylon's
`normalize` returns the zero vector unchanged — but no outward direction is
substituted either: the player is placed exactly at the body's center (not at
distance `bodyRadius + playerRadius`), with the velocity still damped by the
restitution factor 0.2. -/
theorem player_zero_toShip_no_nan (cfg : PlayerCfg) (forward : RVec3) (dt : ℝ) (c : Ctl)
    (bodies : List RBody) (s : PState) (b : RBody)
    (hb : firstCollider cfg.radius (tentativePos cfg forward dt c s) bodies = some b)
    (hc : tentativePos cfg forward dt c s = b.center) :
    bNormalize ((tentativePos cfg forward dt c s).sub b.center) =
      (tentativePos cfg forward dt c s).sub b.center ∧
    (updatePlayer cfg forward dt c bodies s).1.position = b.center ∧
    (updatePlayer cfg forward dt c bodies s).1.linVel =
      (clampedVel cfg forward dt c s.linVel).scale 0.2 := by
  have hzero : (tentativePos cfg forward dt c s).sub b.center = RVec3.mk 0 0 0 := by
    rw [hc]
    exact sub_self_vec _
  refine ⟨?_, ?_, ?_⟩
  · rw [hzero, bNormalize, if_pos (Or.inl len_zero_vec)]
  · simp only [updatePlayer, hb]
    rw [hzero, bNormalize, if_pos (Or.inl len_zero_vec), add_zero_scale_vec]
  · simp only [updatePlayer, hb]

/-- C9 witness: the degenerate-center theorem applied to a concrete tick with
the player exactly at the center of a body of radius 2 at `(3,0,0)` and
player radius 1. -/
theorem player_zero_toShip_no_nan_witness :
    firstCollider (⟨1, 1, 1, 1, 1, 1⟩ : PlayerCfg).radius
      (tentativePos ⟨1, 1, 1, 1, 1, 1⟩ RVec3.zero 0
        ⟨false, false, false, false, false, false, false, false, false⟩
        ⟨⟨3, 0, 0⟩, RVec3.zero, RVec3.zero⟩)
      [⟨⟨3, 0, 0⟩, 2⟩] = some ⟨⟨3, 0, 0⟩, 2⟩ ∧
    tentativePos ⟨1, 1, 1, 1, 1, 1⟩ RVec3.zero 0
      ⟨false, false, false, false, false, false, false, false, false⟩
      ⟨⟨3, 0, 0⟩, RVec3.zero, RVec3.zero⟩ = (⟨⟨3, 0, 0⟩, 2⟩ : RBody).center ∧
    (updatePlayer ⟨1, 1, 1, 1, 1, 1⟩ RVec3.zero 0
      ⟨false, false, false, false, false, false, false, false, false⟩
      [⟨⟨3, 0, 0⟩, 2⟩] ⟨⟨3, 0, 0⟩, RVec3.zero, RVec3.zero⟩).1.position =
      (⟨⟨3, 0, 0⟩, 2⟩ : RBody).center := by
  have htent : tentativePos ⟨1, 1, 1, 1, 1, 1⟩ RVec3.zero 0
      ⟨false, false, false, false, false, false, false, false, false⟩
      ⟨⟨3, 0, 0⟩, RVec3.zero, RVec3.zero⟩ = ⟨3, 0, 0⟩ := by
    norm_num [tentativePos, clampedVel, dampedVel, thrustVel, RVec3.add, RVec3.scale,
      RVec3.zero, RVec3.len, Real.one_rpow, Bool.false_eq_true]
  have hsub : ((RVec3.mk 3 0 0).sub (RVec3.mk 3 0 0)) = RVec3.mk 0 0 0 := sub_self_vec _
  have hb : firstCollider (⟨1, 1, 1, 1, 1, 1⟩ : PlayerCfg).radius
      (tentativePos ⟨1, 1, 1, 1, 1, 1⟩ RVec3.zero 0
        ⟨false, false, false, false, false, false, false, false, false⟩
        ⟨⟨3, 0, 0⟩, RVec3.zero, RVec3.zero⟩)
      [⟨⟨3, 0, 0⟩, 2⟩] = some ⟨⟨3, 0, 0⟩, 2⟩ := by
    rw [htent, firstCollider, if_pos]
    rw [show ((RVec3.mk 3 0 0).sub (⟨⟨3, 0, 0⟩, 2⟩ : RBody).center) = RVec3.mk 0 0 0
      from hsub]
    rw [len_zero_vec]
    norm_num
  have hc : tentativePos ⟨1, 1, 1, 1, 1, 1⟩ RVec3.zero 0
      ⟨false, false, false, false, false, false, false, false, false⟩
      ⟨⟨3, 0, 0⟩, RVec3.zero, RVec3.zero⟩ = (⟨⟨3, 0, 0⟩, 2⟩ : RBody).center := htent
  exact ⟨hb, hc, (player_zero_toShip_no_nan ⟨1, 1, 1, 1, 1, 1⟩ RVec3.zero 0
    ⟨false, false, false, false, false, false, false, false, false⟩
    [⟨⟨3, 0, 0⟩, 2⟩] ⟨⟨3, 0, 0⟩, RVec3.zero, RVec3.zero⟩ ⟨⟨3, 0, 0⟩, 2⟩ hb hc).2.1⟩

/-- C9 counterexample: in the degenerate case the claim asserts the player is
still pushed to the body surface at distance `bodyRadius + playerRadius = 3`
along a substituted outward direction; the code instead leaves the player at
the body center `(3,0,0)`, at distance 0. -/
theorem player_zero_toShip_not_pushed_out :
    (updatePlayer ⟨1, 1, 1, 1, 1, 1⟩ RVec3.zero 0
      ⟨false, false, false, false, false, false, false, false, false⟩
      [⟨⟨3, 0, 0⟩, 2⟩] ⟨⟨3, 0, 0⟩, RVec3.zero, RVec3.zero⟩).1.position =
      RVec3.mk 3 0 0 ∧
    (((updatePlayer ⟨1, 1, 1, 1, 1, 1⟩ RVec3.zero 0
      ⟨false, false, false, false, false, false, false, false, false⟩
      [⟨⟨3, 0, 0⟩, 2⟩] ⟨⟨3, 0, 0⟩, RVec3.zero, RVec3.zero⟩).1.position).sub
        (⟨3, 0, 0⟩ : RVec3)).len = 0 ∧
    ((0 : ℝ) ≠ 2 + 1) := by
  have htent : tentativePos ⟨1, 1, 1, 1, 1, 1⟩ RVec3.zero 0
      ⟨false, false, false, false, false, false, false, false, false⟩
      ⟨⟨3, 0, 0⟩, RVec3.zero, RVec3.zero⟩ = ⟨3, 0, 0⟩ := by
    norm_num [tentativePos, clampedVel, dampedVel, thrustVel, RVec3.add, RVec3.scale,
      RVec3.zero, RVec3.len, Real.one_rpow, Bool.false_eq_true]
  have hb : firstCollider (⟨1, 1, 1, 1, 1, 1⟩ : PlayerCfg).radius
      (tentativePos ⟨1, 1, 1, 1, 1, 1⟩ RVec3.zero 0
        ⟨false, false, false, false, false, false, false, false, false⟩
        ⟨⟨3, 0, 0⟩, RVec3.zero, RVec3.zero⟩)
      [⟨⟨3, 0, 0⟩, 2⟩] = some ⟨⟨3, 0, 0⟩, 2⟩ := by
    rw [htent, firstCollider, if_pos]
    rw [show ((RVec3.mk 3 0 0).sub (⟨⟨3, 0, 0⟩, 2⟩ : RBody).center) = RVec3.mk 0 0 0
      from sub_self_vec _]
    rw [len_zero_vec]
    norm_num
  have hb2 : firstCollider (1 : ℝ) (RVec3.mk 3 0 0) [⟨⟨3, 0, 0⟩, 2⟩] =
      some ⟨⟨3, 0, 0⟩, 2⟩ := by
    rw [firstCollider, if_pos]
    rw [show ((RVec3.mk 3 0 0).sub (⟨⟨3, 0, 0⟩, 2⟩ : RBody).center) = RVec3.mk 0 0 0
      from sub_self_vec _]
    rw [len_zero_vec]
    norm_num
  have hpos : (updatePlayer ⟨1, 1, 1, 1, 1, 1⟩ RVec3.zero 0
      ⟨false, false, false, false, false, false, false, false, false⟩
      [⟨⟨3, 0, 0⟩, 2⟩] ⟨⟨3, 0, 0⟩, RVec3.zero, RVec3.zero⟩).1.position =
      RVec3.mk 3 0 0 := by
    simp only [updatePlayer, htent, hb2, sub_self_vec, bNormalize_zero,
      add_zero_scale_vec]
  refine ⟨hpos, ?_, by norm_num⟩
  rw [hpos, sub_self_vec, len_zero_vec]

end PlayerController

end SpaceDogs
